import Mathlib

/-
  Verification of the cuttlefish instance-registry and start-command
  orchestrator against their design specification.

  Shallow embedding of:
  - host/commands/cvd/selector/instance_database.cpp  (InstanceDatabase)
  - host/commands/cvd/server_command/start.cpp        (CvdStartCommandHandler)
  - host/commands/cvd/selector/instance_record.cpp    (LocalInstance)

  Helpers whose sources are outside the provided slice (name validators,
  filesystem probes, flag-parser plumbing, LocalDeviceNameRule,
  ResponseFromSiginfo, InstanceManager group removal) are either abstracted
  as oracle parameters or modelled from the spec; each such definition says so
  in its doc comment.
-/

namespace Cuttlefish

/-- One `cvd::Instance` protobuf message: a virtual device inside a group.
`instance_database.cpp` reads its `id()` and `name()` fields. -/
structure InstanceProto where
  id : Nat
  name : String
deriving DecidableEq, Repr

/-- One `cvd::InstanceGroup` protobuf message, the persisted form of a Group. -/
structure InstanceGroup where
  name : String
  home_directory : String
  host_artifacts_path : String
  product_out_path : String
  instances : List InstanceProto
deriving DecidableEq, Repr

/-- The `cvd::PersistentData` protobuf message backing the registry file. -/
structure PersistentData where
  instance_groups : List InstanceGroup
  acloud_translator_optout : Bool
deriving DecidableEq, Repr

/-- Error kinds of the design's taxonomy, as far as the registry raises them. -/
inductive DbError where
  | invalid
  | conflict
  | ioErr
deriving DecidableEq, Repr

/-- `InstanceDatabase::FindParam`: a conjunction of optional query fields. -/
structure FindParam where
  home : Option String
  id : Option Nat
  group_name : Option String
  instance_name : Option String
deriving DecidableEq, Repr

/-- Group filter of the static `InstanceDatabase::FindGroups`: every set field
must match; `id` and `instance_name` match when some instance of the group
carries them (`FindById` / `FindByInstanceName`). -/
def groupMatches (param : FindParam) (g : InstanceGroup) : Bool :=
  (match param.home with | none => true | some h => h == g.home_directory) &&
  (match param.group_name with | none => true | some n => n == g.name) &&
  (match param.id with
   | none => true
   | some i => g.instances.any (fun inst => inst.id == i)) &&
  (match param.instance_name with
   | none => true
   | some n => g.instances.any (fun inst => inst.name == n))

/-- Static `InstanceDatabase::FindGroups` over the deserialized data. -/
def findGroupsData (data : PersistentData) (param : FindParam) :
    List InstanceGroup :=
  data.instance_groups.filter (groupMatches param)

/-- Per-instance part of the static `InstanceDatabase::FindInstances` filter. -/
def instanceMatches (param : FindParam) (inst : InstanceProto) : Bool :=
  (match param.id with | none => true | some i => i == inst.id) &&
  (match param.instance_name with | none => true | some n => n == inst.name)

/-- Group-level part of the static `InstanceDatabase::FindInstances` filter. -/
def groupPreMatches (param : FindParam) (g : InstanceGroup) : Bool :=
  (match param.group_name with | none => true | some n => n == g.name) &&
  (match param.home with | none => true | some h => h == g.home_directory)

/-- Static `InstanceDatabase::FindInstances` over the deserialized data. -/
def findInstancesData (data : PersistentData) (param : FindParam) :
    List InstanceProto :=
  data.instance_groups.flatMap (fun g =>
    if groupPreMatches param g then g.instances.filter (instanceMatches param)
    else [])

/-- Oracles for repository helpers called by `InstanceDatabase` whose sources
are outside the provided slice (`instance_database_utils.cpp`, `files.cpp`,
`instance_group_record.cpp`): name validation, directory creation, host-tool
directory probing and `LocalInstanceGroup::Create` validation. -/
structure Env where
  isValidGroupName : String → Bool
  canCreateDirectory : String → Bool
  potentiallyHostArtifactsPath : String → Bool
  isValidInstanceName : String → Bool
  createOk : InstanceGroup → Bool

/-- `EnsureDirectoryExists`: succeeds if the directory exists, otherwise
creates it when possible.  The filesystem is the list of existing
directories; creation prepends. -/
def ensureDirectoryExists (env : Env) (dir : String) (fs : List String) :
    Bool × List String :=
  if fs.contains dir then (true, fs)
  else if env.canCreateDirectory dir then (true, dir :: fs)
  else (false, fs)

/-- Result of `InstanceDatabase::AddInstanceGroup`: the returned value, the
persisted registry afterwards (`WithExclusiveLock` re-serializes only when the
closure succeeds) and the filesystem afterwards. -/
structure AddOutcome where
  result : Except DbError InstanceGroup
  data : PersistentData
  fs : List String
deriving Repr

/-- `InstanceDatabase::AddInstanceGroup`, step by step from the source:
group-name validation, `EnsureDirectoryExists` on the home directory,
host-artifacts probing, per-instance name validation, then under the
exclusive lock the (home, name) group-conflict check, the per-id
instance-conflict check, and finally the append. -/
def addInstanceGroup (env : Env) (g : InstanceGroup) (data : PersistentData)
    (fs : List String) : AddOutcome :=
  if !env.isValidGroupName g.name then ⟨.error .invalid, data, fs⟩
  else
    let ed := ensureDirectoryExists env g.home_directory fs
    if !ed.1 then ⟨.error .ioErr, data, ed.2⟩
    else if !env.potentiallyHostArtifactsPath g.host_artifacts_path then
      ⟨.error .invalid, data, ed.2⟩
    else if g.instances.any (fun inst => !env.isValidInstanceName inst.name)
      then ⟨.error .invalid, data, ed.2⟩
    else if !(findGroupsData data
        ⟨some g.home_directory, none, some g.name, none⟩).isEmpty then
      ⟨.error .conflict, data, ed.2⟩
    else if g.instances.any (fun inst =>
        !(findInstancesData data ⟨none, some inst.id, none, none⟩).isEmpty)
      then ⟨.error .conflict, data, ed.2⟩
    else ⟨.ok g, { data with instance_groups := data.instance_groups ++ [g] },
          ed.2⟩

/-- `InstanceDatabase::RemoveInstanceGroup`: erases the first group with the
given name; returns whether one was erased. -/
def removeInstanceGroup (data : PersistentData) (group_name : String) :
    Bool × PersistentData :=
  match data.instance_groups.findIdx? (fun g => g.name == group_name) with
  | none => (false, data)
  | some i =>
      (true, { data with instance_groups := data.instance_groups.eraseIdx i })

/-- `InstanceDatabase::IsEmpty`. -/
def isEmpty (data : PersistentData) : Bool :=
  data.instance_groups.isEmpty

/-- `InstanceDatabase::Clear`: under the exclusive lock, copies the groups,
clears them, and converts each copy through `LocalInstanceGroup::Create`;
a conversion failure fails the closure, in which case the backing file is
left unmodified. -/
def clear (env : Env) (data : PersistentData) :
    Except DbError (List InstanceGroup) × PersistentData :=
  if data.instance_groups.all env.createOk then
    (.ok data.instance_groups, { data with instance_groups := [] })
  else (.error .invalid, data)

/-- `InstanceDatabase::InstanceGroups` (the ListGroups snapshot): converts
every stored group through `LocalInstanceGroup::Create` under a shared lock. -/
def instanceGroupsList (env : Env) (data : PersistentData) :
    Except DbError (List InstanceGroup) :=
  if data.instance_groups.all env.createOk then .ok data.instance_groups
  else .error .invalid

/-- Invariant R1: (group-name, home-directory) pairs are unique across
groups. -/
def R1 (data : PersistentData) : Prop :=
  (data.instance_groups.map (fun g => (g.name, g.home_directory))).Nodup

/-- All instance ids of the registry, in group order. -/
def allIds (data : PersistentData) : List Nat :=
  data.instance_groups.flatMap (fun g => g.instances.map (fun inst => inst.id))

/-- Invariant R2: instance ids are globally unique. -/
def R2 (data : PersistentData) : Prop :=
  (allIds data).Nodup

instance (data : PersistentData) : Decidable (R1 data) := by
  unfold R1; infer_instance

instance (data : PersistentData) : Decidable (R2 data) := by
  unfold R2; infer_instance

/-- `LocalInstanceGroup::Deserialize` lives outside the slice; `LoadFromJson`
is parameterized over it.  A JSON value as far as `LoadFromJson` inspects
one. -/
inductive JsonVal where
  | nullV
  | boolV (b : Bool)
  | numV (n : Int)
  | strV (s : String)
  | arrV (elems : List JsonVal)
  | objV (fields : List (String × JsonVal))

/-- `Json::Value::isMember`. -/
def jsonIsMember : JsonVal → String → Bool
  | .objV fields, key => fields.any (fun kv => kv.1 == key)
  | _, _ => false

/-- Indexing `db_json[key]`. -/
def jsonGet : JsonVal → String → JsonVal
  | .objV fields, key =>
      match fields.find? (fun kv => kv.1 == key) with
      | some kv => kv.2
      | none => .nullV
  | _, _ => .nullV

/-- `InstanceDatabase::LoadFromJson`: requires the literal key "Groups" whose
value is an array, deserializes every element, and then — under the exclusive
lock — appends every parsed group to the existing ones.  The source performs
no conflict check here. -/
def loadFromJson (deser : JsonVal → Option InstanceGroup) (dbJson : JsonVal)
    (data : PersistentData) : Except DbError PersistentData :=
  if !jsonIsMember dbJson "Groups" then .error .invalid
  else
    match jsonGet dbJson "Groups" with
    | .arrV elems =>
      match elems.mapM deser with
      | none => .error .invalid
      | some new_groups =>
          .ok { data with
                instance_groups := data.instance_groups ++ new_groups }
    | _ => .error .invalid

/-- One `selector::PerInstanceInfo` of a `GroupCreationInfo`. -/
structure PerInstanceInfo where
  instance_id : Nat
  per_instance_name : String
deriving DecidableEq, Repr

/-- `selector::GroupCreationInfo`, as read by `start.cpp`. -/
structure GroupCreationInfo where
  home : String
  host_artifacts_path : String
  product_out_path : String
  group_name : String
  instances : List PerInstanceInfo
  args : List String
  envs : List (String × String)
  is_default_group : Bool
deriving DecidableEq, Repr

/-- Character-wise prefix test, modelling the byte-wise prefix checks of the
flag parser and of `android::base::StartsWith`. -/
def listStartsWith : List Char → List Char → Bool
  | [], _ => true
  | _ :: _, [] => false
  | c :: cs, d :: ds => c == d && listStartsWith cs ds

/-- Whether `p` is a prefix of `a`. -/
def strStartsWith (p a : String) : Bool :=
  listStartsWith p.toList a.toList

/-- Drops the first `n` characters of `a` (the flag parser trims the matched
alias prefix off the argument). -/
def strDropChars (a : String) (n : Nat) : String :=
  String.mk (a.toList.drop n)

/-- Character-wise infix test, modelling `std::string::find(sub) != npos`. -/
def listHasSubList (sub : List Char) : List Char → Bool
  | [] => sub.isEmpty
  | c :: rest => listStartsWith sub (c :: rest) || listHasSubList sub rest

/-- Whether `s` contains `sub` as a substring. -/
def strContains (s sub : String) : Bool :=
  listHasSubList sub.toList s.toList

/-- Character-wise lower casing, modelling the ASCII case folding of
`android::base::EqualsIgnoreCase`. -/
def lowerStr (s : String) : String :=
  String.mk (s.toList.map Char.toLower)

/-- `android::base::EqualsIgnoreCase`. -/
def equalsIgnoreCase (a b : String) : Bool :=
  lowerStr a == lowerStr b

/-- Looks up an environment variable in the ordered environment map. -/
def getEnv (envs : List (String × String)) (key : String) : Option String :=
  (envs.find? (fun kv => kv.1 == key)).map (fun kv => kv.2)

/-- Sets an environment variable, replacing an existing binding in place. -/
def setEnv (envs : List (String × String)) (key value : String) :
    List (String × String) :=
  if envs.any (fun kv => kv.1 == key) then
    envs.map (fun kv => if kv.1 == key then (key, value) else kv)
  else envs ++ [(key, value)]

/-- Erases an environment variable. -/
def eraseEnv (envs : List (String × String)) (key : String) :
    List (String × String) :=
  envs.filter (fun kv => kv.1 != key)

/-- Modelled from the spec: "Consume and discard any of `--instance_nums`,
`--num_instances`, `--base_instance_num` from the raw args".  The
`ConsumeFlags`/`GflagsCompatFlag` plumbing of `flag_parser.cpp` is outside the
slice; gflags-compatible occurrences of the named flags are dropped. -/
def consumeGflagsCompatFlags (names : List String) (args : List String) :
    List String :=
  args.filter (fun a => !(names.any (fun n =>
    a == "--" ++ n || a == "-" ++ n ||
    strStartsWith ("--" ++ n ++ "=") a || strStartsWith ("-" ++ n ++ "=") a)))

/-- `HostToolTargetManager.ReadFlag` success oracle for operation "start":
whether the on-disk launcher accepts the named flag. -/
structure Introspector where
  accepts : String → Bool

/-- Minimum of the ids (`std::min_element`; the source assumes the list is
non-empty). -/
def idsMin : List Nat → Nat
  | [] => 0
  | x :: xs => xs.foldl Nat.min x

/-- Maximum of the ids (`std::max_element`; the source assumes the list is
non-empty). -/
def idsMax : List Nat → Nat
  | [] => 0
  | x :: xs => xs.foldl Nat.max x

/-- `std::is_sorted` on the ids (non-strict). -/
def isSortedLe : List Nat → Bool
  | [] => true
  | [_] => true
  | a :: b :: rest => a ≤ b && isSortedLe (b :: rest)

/-- `CvdStartCommandHandler::UpdateInstanceArgsAndEnvs`: strips the three
client-supplied instance-identity flags, then re-emits canonical ones.
Non-consecutive or unsorted ids go through `--instance_nums=<join>`;
consecutive sorted ids use `--num_instances` (when more than one id, checked
against the introspector), `--base_instance_num` iff accepted, and set the
`CUTTLEFISH_INSTANCE` environment variable to the minimum id. -/
def updateInstanceArgsAndEnvs (intro : Introspector) (args : List String)
    (envs : List (String × String)) (instances : List PerInstanceInfo) :
    Except DbError (List String × List (String × String)) :=
  let ids := instances.map (fun i => i.instance_id)
  let new_args := consumeGflagsCompatFlags
    ["instance_nums", "num_instances", "base_instance_num"] args
  let mx := idsMax ids
  let mn := idsMin ids
  let is_consecutive := (mx - mn) == ids.length - 1
  let is_sorted := isSortedLe ids
  if !is_consecutive || !is_sorted then
    if intro.accepts "instance_nums" then
      .ok (new_args ++
        ["--instance_nums=" ++ String.intercalate "," (ids.map toString)],
        envs)
    else .error .invalid
  else
    if ids.length > 1 && !intro.accepts "num_instances" then .error .invalid
    else
      let args1 :=
        if ids.length > 1 then
          new_args ++ ["--num_instances=" ++ toString ids.length]
        else new_args
      let args2 :=
        if intro.accepts "base_instance_num" then
          args1 ++ ["--base_instance_num=" ++ toString mn]
        else args1
      .ok (args2, setEnv envs "CUTTLEFISH_INSTANCE" (toString mn))

/-- Setter of `ConsumeDaemonModeFlag` for an exact (valueless) alias match:
rejects keys containing "no" (`-nodaemon`/`--nodaemon`), accepts the rest. -/
def daemonSetterExact (key : String) : Except DbError Unit :=
  if strContains key "no" then .error .invalid else .ok ()

/-- Setter of `ConsumeDaemonModeFlag` for a `--daemon=<v>` match: rejects
values containing a comma, accepts case-insensitive y/yes/true, and errors on
the explicit false strings n/no/false as well as on anything else. -/
def daemonSetterValue (value : String) : Except DbError Unit :=
  if strContains value "," then .error .invalid
  else if ["y", "yes", "true"].any (fun t => equalsIgnoreCase t value) then
    .ok ()
  else .error .invalid

/-- `ConsumeDaemonModeFlag`: consumes every `-daemon=`/`--daemon=` prefixed
arg and every exact `-daemon`/`--daemon`/`-nodaemon`/`--nodaemon` arg through
the setter above, leaving the remaining args. -/
def consumeDaemonModeFlag : List String → Except DbError (List String)
  | [] => .ok []
  | a :: rest =>
    if strStartsWith "-daemon=" a then
      match daemonSetterValue (strDropChars a 8) with
      | .error e => .error e
      | .ok _ => consumeDaemonModeFlag rest
    else if strStartsWith "--daemon=" a then
      match daemonSetterValue (strDropChars a 9) with
      | .error e => .error e
      | .ok _ => consumeDaemonModeFlag rest
    else if a == "-daemon" || a == "--daemon" || a == "-nodaemon" ||
        a == "--nodaemon" then
      match daemonSetterExact a with
      | .error e => .error e
      | .ok _ => consumeDaemonModeFlag rest
    else
      match consumeDaemonModeFlag rest with
      | .error e => .error e
      | .ok l => .ok (a :: l)

/-- The daemon-flag lines of `CvdStartCommandHandler::Handle`:
`CF_EXPECT(ConsumeDaemonModeFlag(subcmd_args))` followed by
`subcmd_args.push_back("--daemon=true")` (the push happens only when
consumption succeeded, since `CF_EXPECT` propagates the failure). -/
def normalizeDaemonArgs (args : List String) : Except DbError (List String) :=
  match consumeDaemonModeFlag args with
  | .error e => .error e
  | .ok args1 => .ok (args1 ++ ["--daemon=true"])

/-- HOME normalization of `CvdStartCommandHandler::Handle`: an empty HOME is
erased; a HOME starting with `~` (or `~/`) is rejected; otherwise HOME is
rewritten through `EmulateAbsolutePath` with the client's working directory
as base and follow_symlink = false.  `EmulateAbsolutePath` (files.cpp) is
outside the slice and abstracted as the oracle `emu cwd sysHome path`. -/
def resolveHomeEnv (emu : String → String → String → String)
    (client_pwd sys_home : String) (envs : List (String × String)) :
    Except DbError (List (String × String)) :=
  match getEnv envs "HOME" with
  | none => .ok envs
  | some h =>
    if h == "" then .ok (eraseEnv envs "HOME")
    else if strStartsWith "~" h || strStartsWith "~/" h then .error .invalid
    else .ok (setEnv envs "HOME" (emu client_pwd sys_home h))

/-- A `siginfo_t` as examined by `LaunchDevice`: whether the child exited
normally (CLD_EXITED) or was terminated by a signal, and its status. -/
inductive SiCode where
  | exited
  | killed
  | dumped
deriving DecidableEq, Repr

/-- Child exit information returned by `SubprocessWaiter::Wait`. -/
structure ExitInfo where
  si_code : SiCode
  si_status : Nat
deriving DecidableEq, Repr

/-- Response status codes reached by the modelled paths. -/
inductive StatusCode where
  | okCode
  | internal
deriving DecidableEq, Repr

/-- A `cvd::Response` as far as `LaunchDevice` builds one. -/
structure Response where
  code : StatusCode
  message : String
deriving DecidableEq, Repr

/-- Modelled from the spec: `ResponseFromSiginfo` (outside the slice) returns
the child's exit-derived response — OK for a normal zero exit, an error
status surfacing the child's code otherwise ("child non-zero → INTERNAL with
child code surfaced"). -/
def responseFromSiginfo (infop : ExitInfo) : Response :=
  if infop.si_code == .exited && infop.si_status == 0 then ⟨.okCode, ""⟩
  else ⟨.internal, "child status " ++ toString infop.si_status⟩

/-- Outcome oracle for the force-stop collaborator `RunCvdProcessManager`:
whether the collector can be obtained, and whether `ForcefullyStopGroup`
succeeds for a given first-instance id. -/
structure StopCollab where
  collectorOk : Bool
  stopOk : Nat → Bool

/-- Observable side effects of the launch paths. -/
inductive Event where
  | forceStopInvoked (id : Nat)
  | groupRemoved (home : String)
deriving DecidableEq, Repr

/-- Operator guidance returned when the collector cannot be obtained. -/
def kCollectorFailure : String :=
  "Consider running cvd reset -y: collecting run_cvd failed."

/-- Operator guidance returned when stopping run_cvd processes failed. -/
def kStopFailure : String :=
  "Consider running cvd reset -y: stopping run_cvd processes failed."

/-- `CvdResetGroup`: obtains the run_cvd process collector, requires a
non-empty instance list, and forcefully stops the group by the FIRST
instance id; failures yield INTERNAL responses with operator guidance. -/
def cvdResetGroup (collab : StopCollab) (instances : List PerInstanceInfo) :
    Except DbError (Response × List Event) :=
  if !collab.collectorOk then .ok (⟨.internal, kCollectorFailure⟩, [])
  else
    match instances with
    | [] => .error .invalid
    | first :: _ =>
      if !collab.stopOk first.instance_id then
        .ok (⟨.internal, kStopFailure⟩, [.forceStopInvoked first.instance_id])
      else .ok (⟨.okCode, ""⟩, [.forceStopInvoked first.instance_id])

/-- `CvdStartCommandHandler::LaunchDevice` from the `Wait()` on: when the
child did not exit normally with status 0, runs `CvdResetGroup` (returning
its INTERNAL response when it is not OK), and in every remaining case
returns `ResponseFromSiginfo(infop)`. -/
def launchDevice (collab : StopCollab) (instances : List PerInstanceInfo)
    (infop : ExitInfo) : Except DbError Response × List Event :=
  if infop.si_code != SiCode.exited || infop.si_status != 0 then
    match cvdResetGroup collab instances with
    | .error e => (.error e, [])
    | .ok (reset_response, evs) =>
      if reset_response.code != StatusCode.okCode then
        (.ok reset_response, evs)
      else (.ok (responseFromSiginfo infop), evs)
  else (.ok (responseFromSiginfo infop), [])

/-- Modelled from the spec: `InstanceManager::RemoveInstanceGroup(home)`
(outside the slice) removes the Group with that home from the Registry. -/
def removeGroupsByHome (data : PersistentData) (home : String) :
    PersistentData :=
  { data with instance_groups :=
      data.instance_groups.filter (fun g => g.home_directory != home) }

/-- The `cvd::InstanceGroup` proto built from a creation plan. -/
def groupProtoOfInfo (info : GroupCreationInfo) : InstanceGroup :=
  { name := info.group_name
    home_directory := info.home
    host_artifacts_path := info.host_artifacts_path
    product_out_path := info.product_out_path
    instances := info.instances.map (fun i =>
      ⟨i.instance_id, i.per_instance_name⟩) }

/-- `CvdStartCommandHandler::UpdateInstanceDatabase`:
`InstanceManager::SetInstanceGroup` is outside the slice; per the spec it
reserves the group in the registry as `AddGroup` does. -/
def updateInstanceDatabase (env : Env) (info : GroupCreationInfo)
    (data : PersistentData) (fs : List String) : AddOutcome :=
  addInstanceGroup env (groupProtoOfInfo info) data fs

/-- Outcome of `LaunchDeviceInterruptible`: the response, the registry and
filesystem afterwards, and the observable side effects. -/
structure LaunchOutcome where
  result : Except DbError Response
  data : PersistentData
  fs : List String
  events : List Event
deriving Repr

/-- `CvdStartCommandHandler::LaunchDeviceInterruptible`: registers the group,
launches, and — when the launch result is an error or its status is not OK —
removes the group from the registry before returning the result.  The
best-effort success-path actions (symlinks for default groups, lockfile
marking) are logged-and-ignored side effects and are not modelled. -/
def launchDeviceInterruptible (env : Env) (collab : StopCollab)
    (info : GroupCreationInfo) (infop : ExitInfo) (data : PersistentData)
    (fs : List String) : LaunchOutcome :=
  let add := updateInstanceDatabase env info data fs
  match add.result with
  | .error e => ⟨.error e, add.data, add.fs, []⟩
  | .ok _ =>
    match launchDevice collab info.instances infop with
    | (.error e, evs) =>
        ⟨.error e, removeGroupsByHome add.data info.home, add.fs,
         evs ++ [.groupRemoved info.home]⟩
    | (.ok resp, evs) =>
      if resp.code != StatusCode.okCode then
        ⟨.ok resp, removeGroupsByHome add.data info.home, add.fs,
         evs ++ [.groupRemoved info.home]⟩
      else ⟨.ok resp, add.data, add.fs, evs⟩

/-- The `LocalInstance` record of `instance_record.cpp`. -/
structure LocalInstance where
  instance_id : Nat
  internal_name : String
  internal_group_name : String
  group_name : String
  per_instance_name : String
deriving DecidableEq, Repr

/-- The `LocalInstance` constructor: `internal_name_` is initialized to
`std::to_string(instance_id_)`; the other fields are stored as given. -/
def mkLocalInstance (instance_id : Nat)
    (internal_group_name group_name instance_name : String) : LocalInstance :=
  { instance_id := instance_id
    internal_name := toString instance_id
    internal_group_name := internal_group_name
    group_name := group_name
    per_instance_name := instance_name }

/-- `LocalInstance::InternalDeviceName`: `LocalDeviceNameRule` lives in
`instance_database_utils` outside the slice and is abstracted as `rule`. -/
def internalDeviceName (rule : String → String → String) (i : LocalInstance) :
    String :=
  rule i.internal_group_name i.internal_name

/-- `LocalInstance::DeviceName`: the same rule on the user-visible names. -/
def deviceName (rule : String → String → String) (i : LocalInstance) :
    String :=
  rule i.group_name i.per_instance_name

/-- Values held by the atomic `signal_pipe_write_end` slot during one arming
cycle: the pipe write-end fd (the single non-negative value), IN_USE_FD or
CLOSED_FD. -/
inductive SlotVal where
  | fdVal
  | inUse
  | closedSent
deriving DecidableEq, Repr

/-- Program counter of one execution of `InterruptHandler`, carrying the
local `fd` variable where it is live.  The handler's four atomic actions are
the first exchange, the guarded write, the restoring exchange, and the final
guarded exchange-and-close. -/
inductive HandlerState where
  | idle
  | swapped (x : SlotVal)
  | wrote (x : SlotVal)
  | restored (x : SlotVal)
  | finished
deriving DecidableEq, Repr

/-- Observable pipe-fd events: a write to the fd, a close of the fd. -/
inductive SigEvent where
  | writeFd
  | closeFd
deriving DecidableEq, Repr

/-- Whole-system state of one arming cycle of the signal bridge: the atomic
slot, the states of the handler executions, whether
`StopHandlingInterruptSignals` has run, and the chronological fd events. -/
structure SigSys where
  slot : SlotVal
  handlers : List HandlerState
  tdone : Bool
  events : List SigEvent
deriving DecidableEq, Repr

/-- One atomic action of `InterruptHandler` (start.cpp lines 69-84):
`fd = exchange(IN_USE)`; `if (fd >= 0) write(fd, ...)`;
`fd = exchange(fd)`; `if (fd != IN_USE) { fd = exchange(CLOSED);
if (fd >= 0) close(fd); }`. -/
def handlerAction (slot : SlotVal) (h : HandlerState) :
    SlotVal × HandlerState × List SigEvent :=
  match h with
  | .idle => (.inUse, .swapped slot, [])
  | .swapped x => (slot, .wrote x, if x == .fdVal then [.writeFd] else [])
  | .wrote x => (x, .restored slot, [])
  | .restored x =>
      if x == .inUse then (slot, .finished, [])
      else (.closedSent, .finished, if slot == .fdVal then [.closeFd] else [])
  | .finished => (slot, .finished, [])

/-- Scheduling labels: one step of handler execution `i`, or the teardown
`StopHandlingInterruptSignals` (lines 102-111): `fd = exchange(CLOSED);
if (fd >= 0) close(fd)`. -/
inductive SigLab where
  | h (i : Nat)
  | t
deriving DecidableEq, Repr

/-- Interleaving small-step semantics of the signal bridge. -/
def sigStep (s : SigSys) : SigLab → SigSys
  | .h i =>
    match s.handlers.get? i with
    | none => s
    | some hs =>
      match handlerAction s.slot hs with
      | (slot1, hs1, evs) =>
        { slot := slot1, handlers := s.handlers.set i hs1, tdone := s.tdone,
          events := s.events ++ evs }
  | .t =>
    if s.tdone then s
    else
      { slot := .closedSent, handlers := s.handlers, tdone := true,
        events := s.events ++ (if s.slot == .fdVal then [.closeFd] else []) }

/-- Runs a schedule from a state. -/
def sigRun (s : SigSys) (sched : List SigLab) : SigSys :=
  sched.foldl sigStep s

/-- Armed initial state: the slot holds the fd (`HandleInterruptSignals`),
`n` handler executions may arrive, teardown is pending. -/
def sigInit (n : Nat) : SigSys :=
  ⟨.fdVal, List.replicate n .idle, false, []⟩

/-- Number of closes of the pipe write-end fd so far. -/
def closes (s : SigSys) : Nat :=
  s.events.count .closeFd

/-- Whether every handler execution and the teardown have completed. -/
def allFinished (s : SigSys) : Bool :=
  s.handlers.all (fun h => h == .finished) && s.tdone

/-- Whether a handler execution currently holds the fd in a local that it
will still publish back to the slot (between its first and its restoring
exchange). -/
def holdsFd : HandlerState → Bool
  | .swapped x => x == .fdVal
  | .wrote x => x == .fdVal
  | _ => false

/-- Number of reachable copies of the fd: in the slot or held by a handler. -/
def fdCopies (s : SigSys) : Nat :=
  (if s.slot == .fdVal then 1 else 0) + s.handlers.countP holdsFd

/-- No write to the fd occurs at or after the first close of the fd. -/
def noWriteAfterClose : List SigEvent → Bool
  | [] => true
  | .writeFd :: rest => noWriteAfterClose rest
  | .closeFd :: rest => !rest.contains .writeFd

/-- The four steps of one complete handler execution, used by serialized
schedules. -/
def hblock (i : Nat) : List SigLab :=
  [.h i, .h i, .h i, .h i]

/-- Serialized handler executions: handler 0's four steps, then handler 1's,
and so on. -/
def serialTrunk (n : Nat) : List SigLab :=
  (List.range n).flatMap hblock

/-- Safety invariant of the bridge: at most one reachable copy of the fd
exists counting the closes already performed, and the event trace never
shows a write after a close. -/
def SigInv (s : SigSys) : Prop :=
  fdCopies s + closes s ≤ 1 ∧ noWriteAfterClose s.events = true

/-- Composition of the start-request phases relevant to HOME validation:
`Handle` resolves HOME before the creation plan is built, and the registry is
mutated only later inside `LaunchDeviceInterruptible`; a HOME failure
therefore precedes every registry mutation.  `mkInfo` abstracts the planner
turning the resolved environment into the creation plan. -/
def handleHomeAndLaunch (emu : String → String → String → String) (env : Env)
    (collab : StopCollab) (cwd sys : String) (envs : List (String × String))
    (mkInfo : List (String × String) → GroupCreationInfo) (infop : ExitInfo)
    (data : PersistentData) (fs : List String) :
    Except DbError Response × PersistentData :=
  match resolveHomeEnv emu cwd sys envs with
  | .error e => (.error e, data)
  | .ok envs1 =>
    let out := launchDeviceInterruptible env collab (mkInfo envs1) infop data fs
    (out.result, out.data)

/-- Instance ids of a creation plan, in creation order. -/
def idsOf (instances : List PerInstanceInfo) : List Nat :=
  instances.map (fun i => i.instance_id)

instance {ε α : Type} [DecidableEq ε] [DecidableEq α] :
    DecidableEq (Except ε α) := fun x y =>
  match x, y with
  | .error a, .error b =>
    if h : a = b then isTrue (h ▸ rfl)
    else isFalse (fun hc => h (Except.error.inj hc))
  | .ok a, .ok b =>
    if h : a = b then isTrue (h ▸ rfl)
    else isFalse (fun hc => h (Except.ok.inj hc))
  | .error _, .ok _ => isFalse (fun hc => Except.noConfusion hc)
  | .ok _, .error _ => isFalse (fun hc => Except.noConfusion hc)

/-- All-accepting validation oracles, for concrete evaluations. -/
def envAll : Env :=
  ⟨fun _ => true, fun _ => true, fun _ => true, fun _ => true, fun _ => true⟩

/-- A collaborator whose collector and force-stop always succeed. -/
def collabAll : StopCollab :=
  ⟨true, fun _ => true⟩

/-- The empty registry. -/
def dataNil : PersistentData :=
  ⟨[], false⟩

/-- A group spec whose two instances share the id 2. -/
def gDup : InstanceGroup :=
  ⟨"g", "/h", "/a", "/p", [⟨2, "x"⟩, ⟨2, "y"⟩]⟩

/-- A single-instance group at home /h with instance id 2. -/
def gOne : InstanceGroup :=
  ⟨"g", "/h", "/a", "/p", [⟨2, "1"⟩]⟩

/-- A registry already holding `gOne`. -/
def dataOne : PersistentData :=
  ⟨[gOne], false⟩

/-- An import blob with one element under the "Groups" key. -/
def blobOne : JsonVal :=
  .objV [("Groups", .arrV [.nullV])]

/-- A deserializer that parses every element as `gOne`. -/
def deserOne : JsonVal → Option InstanceGroup :=
  fun _ => some gOne

/-- A creation plan for group g at home /h with the single instance id 9. -/
def infoNine : GroupCreationInfo :=
  ⟨"/h", "/a", "/p", "g", [⟨9, "1"⟩], [], [], false⟩

/-- A child exit record: exited with status 1. -/
def exitedOne : ExitInfo :=
  ⟨.exited, 1⟩

/-- An interleaving with two overlapping handler executions: both swap in
IN_USE before either restores; the first restores the fd and sees IN_USE (so
it leaves closing to others), the second restores IN_USE, takes the fd for a
teardown it wrongly infers, and drops it. -/
def schedLeak : List SigLab :=
  [.h 0, .h 1, .h 0, .h 0, .h 0, .h 1, .h 1, .h 1, .t]

/-- A client environment overriding HOME with a tilde path. -/
def envsTilde : List (String × String) :=
  [("HOME", "~/x")]

/-- An introspector for a launcher accepting every flag. -/
def introAll : Introspector :=
  ⟨fun _ => true⟩

/-- A non-consecutive instance list with ids 2, 5, 7. -/
def instsGap : List PerInstanceInfo :=
  [⟨2, "a"⟩, ⟨5, "b"⟩, ⟨7, "c"⟩]

/-- The R1-style conflict of the claim: some existing group shares the
(home-directory, group-name) pair of the spec. -/
def groupPairConflict (data : PersistentData) (g : InstanceGroup) : Prop :=
  ∃ g' ∈ data.instance_groups,
    g'.home_directory = g.home_directory ∧ g'.name = g.name

/-- The R2-style conflict of the claim: some existing instance carries an id
that also occurs in the spec. -/
def instanceIdConflict (data : PersistentData) (g : InstanceGroup) : Prop :=
  ∃ inst ∈ g.instances, inst.id ∈ allIds data

instance (data : PersistentData) (g : InstanceGroup) :
    Decidable (groupPairConflict data g) := by
  unfold groupPairConflict; infer_instance

instance (data : PersistentData) (g : InstanceGroup) :
    Decidable (instanceIdConflict data g) := by
  unfold instanceIdConflict; infer_instance

/-- C8: for every registry state whose stored groups re-validate (invariant
R3, the registry's steady state), Clear() returns exactly the snapshot
ListGroups() would have returned immediately before, and afterwards
IsEmpty() returns true. -/
theorem clear_returns_prior_groups (env : Env) (data : PersistentData)
    (hvalid : data.instance_groups.all env.createOk = true) :
    (clear env data).1 = instanceGroupsList env data ∧
    isEmpty (clear env data).2 = true := by
  refine ⟨?_, ?_⟩
  · simp [clear, instanceGroupsList, hvalid]
  · simp [clear, isEmpty, hvalid]

theorem clear_returns_prior_groups_witness :
    dataOne.instance_groups.all envAll.createOk = true ∧
    ((clear envAll dataOne).1 = instanceGroupsList envAll dataOne ∧
     isEmpty (clear envAll dataOne).2 = true) :=
  ⟨rfl, clear_returns_prior_groups envAll dataOne rfl⟩

/-- C10: a LocalInstance constructed with id n has InternalName equal to the
decimal representation of n, and its InternalDeviceName is the fixed rule
applied to the internal group name and that decimal string — independent of
the user-chosen group and per-instance names. -/
theorem localInstance_internal_names (rule : String → String → String)
    (n : Nat) (ig gn1 pn1 gn2 pn2 : String) :
    (mkLocalInstance n ig gn1 pn1).internal_name = toString n ∧
    internalDeviceName rule (mkLocalInstance n ig gn1 pn1) =
      rule ig (toString n) ∧
    internalDeviceName rule (mkLocalInstance n ig gn1 pn1) =
      internalDeviceName rule (mkLocalInstance n ig gn2 pn2) :=
  ⟨rfl, rfl, rfl⟩

/-- C5 (counterexample): adding a group that conflicts with an existing one
returns Conflict and leaves the persisted registry unchanged, but the spec's
home directory has already been created by then: starting from an empty
filesystem, the filesystem afterwards contains /h. -/
theorem addInstanceGroup_creates_home_on_conflict :
    (addInstanceGroup envAll gOne dataOne []).result = .error .conflict ∧
    (addInstanceGroup envAll gOne dataOne []).data = dataOne ∧
    (addInstanceGroup envAll gOne dataOne []).fs = ["/h"] :=
  ⟨rfl, rfl, rfl⟩

/-- C5 (amended): when AddGroup returns any error, the persisted registry is
unmodified, and the only filesystem change that may have occurred is the
creation of the spec's home directory (which precedes the host-artifacts
validation, the instance-name validation and both conflict checks). -/
theorem addInstanceGroup_error_side_effects (env : Env) (g : InstanceGroup)
    (data : PersistentData) (fs : List String) (e : DbError)
    (herr : (addInstanceGroup env g data fs).result = .error e) :
    (addInstanceGroup env g data fs).data = data ∧
    ((addInstanceGroup env g data fs).fs = fs ∨
     (addInstanceGroup env g data fs).fs = g.home_directory :: fs) := by
  revert herr
  simp only [addInstanceGroup, ensureDirectoryExists]
  split_ifs <;> simp

theorem addInstanceGroup_error_side_effects_witness :
    (addInstanceGroup envAll gOne dataOne []).result =
      .error DbError.conflict ∧
    ((addInstanceGroup envAll gOne dataOne []).data = dataOne ∧
     ((addInstanceGroup envAll gOne dataOne []).fs = [] ∨
      (addInstanceGroup envAll gOne dataOne []).fs =
        gOne.home_directory :: [])) :=
  ⟨rfl, addInstanceGroup_error_side_effects envAll gOne dataOne []
    DbError.conflict rfl⟩

/-- C4 (counterexample): importing a blob whose group collides with an
existing group does not fail the way AddGroup would: AddGroup on the same
group returns Conflict, yet LoadFromJson succeeds and duplicates the group,
violating R1. -/
theorem loadFromJson_conflict_not_failed :
    (addInstanceGroup envAll gOne dataOne []).result = Except.error .conflict ∧
    loadFromJson deserOne blobOne dataOne =
      .ok { instance_groups := [gOne, gOne], acloud_translator_optout := false } ∧
    ¬ R1 { instance_groups := [gOne, gOne], acloud_translator_optout := false } :=
  ⟨rfl, rfl, by decide⟩

/-- C4 (amended): LoadFromJson fails with Invalid when the blob lacks the
literal key "Groups", when that key's value is not an array, or when an
element fails to deserialize; otherwise it appends every parsed group to the
existing ones with no conflict check of any kind. -/
theorem loadFromJson_appends_without_conflict_check
    (deser : JsonVal → Option InstanceGroup) (dbJson : JsonVal)
    (data : PersistentData) :
    (jsonIsMember dbJson "Groups" = false →
      loadFromJson deser dbJson data = .error .invalid) ∧
    (∀ elems new_groups, jsonGet dbJson "Groups" = .arrV elems →
      elems.mapM deser = some new_groups →
      jsonIsMember dbJson "Groups" = true →
      loadFromJson deser dbJson data =
        .ok { data with
              instance_groups := data.instance_groups ++ new_groups }) ∧
    (∀ elems, jsonGet dbJson "Groups" = .arrV elems →
      elems.mapM deser = none →
      jsonIsMember dbJson "Groups" = true →
      loadFromJson deser dbJson data = .error .invalid) ∧
    ((∀ elems, jsonGet dbJson "Groups" ≠ .arrV elems) →
      jsonIsMember dbJson "Groups" = true →
      loadFromJson deser dbJson data = .error .invalid) := by
  refine ⟨?_, ?_, ?_, ?_⟩
  · intro hmem
    simp [loadFromJson, hmem]
  · intro elems new_groups hget hmap hmem
    simp only [loadFromJson, hmem, Bool.not_true, Bool.false_eq_true,
      if_false, hget]
    rw [hmap]
  · intro elems hget hmap hmem
    simp only [loadFromJson, hmem, Bool.not_true, Bool.false_eq_true,
      if_false, hget]
    rw [hmap]
  · intro hnot hmem
    cases hval : jsonGet dbJson "Groups" with
    | arrV elems => exact absurd hval (hnot elems)
    | nullV => simp [loadFromJson, hmem, hval]
    | boolV b => simp [loadFromJson, hmem, hval]
    | numV n => simp [loadFromJson, hmem, hval]
    | strV s => simp [loadFromJson, hmem, hval]
    | objV fields => simp [loadFromJson, hmem, hval]

theorem loadFromJson_appends_witness :
    loadFromJson deserOne blobOne dataOne =
      .ok { instance_groups := dataOne.instance_groups ++ [gOne],
            acloud_translator_optout := false } :=
  (loadFromJson_appends_without_conflict_check deserOne blobOne
    dataOne).2.1 [JsonVal.nullV] [gOne] rfl rfl rfl

theorem filter_isEmpty_false_iff {α : Type} (l : List α) (p : α → Bool) :
    (l.filter p).isEmpty = false ↔ ∃ x ∈ l, p x = true := by
  induction l with
  | nil => simp
  | cons a l ih =>
    by_cases h : p a <;> simp [List.filter_cons, h, ih]

theorem findGroupsData_conflict_iff (data : PersistentData)
    (g : InstanceGroup) :
    (findGroupsData data
      ⟨some g.home_directory, none, some g.name, none⟩).isEmpty = false ↔
    groupPairConflict data g := by
  rw [findGroupsData, filter_isEmpty_false_iff]
  constructor
  · rintro ⟨g', hm, hmat⟩
    simp only [groupMatches, Bool.and_eq_true, beq_iff_eq, and_true] at hmat
    exact ⟨g', hm, hmat.1.symm, hmat.2.symm⟩
  · rintro ⟨g', hm, h1, h2⟩
    refine ⟨g', hm, ?_⟩
    simp [groupMatches, h1, h2]

theorem findInstancesData_id_isEmpty_false_iff (data : PersistentData)
    (k : Nat) :
    (findInstancesData data ⟨none, some k, none, none⟩).isEmpty = false ↔
    k ∈ allIds data := by
  cases hfi : findInstancesData data ⟨none, some k, none, none⟩ with
  | nil =>
    simp only [List.isEmpty_nil]
    constructor
    · intro h; exact absurd h (by simp)
    · intro hmem
      simp only [allIds, List.mem_flatMap, List.mem_map] at hmem
      obtain ⟨grp, hg, inst, hi, hid⟩ := hmem
      have : inst ∈ findInstancesData data ⟨none, some k, none, none⟩ := by
        simp only [findInstancesData, List.mem_flatMap]
        refine ⟨grp, hg, ?_⟩
        simp [groupPreMatches, instanceMatches, List.mem_filter, hi, hid]
      rw [hfi] at this
      exact absurd this (List.not_mem_nil inst)
  | cons inst rest =>
    simp only [List.isEmpty_cons]
    constructor
    · intro _
      have hmem : inst ∈ findInstancesData data ⟨none, some k, none, none⟩ := by
        rw [hfi]; exact List.mem_cons_self inst rest
      simp only [findInstancesData, List.mem_flatMap] at hmem
      obtain ⟨grp, hg, hin⟩ := hmem
      by_cases hpm : groupPreMatches ⟨none, some k, none, none⟩ grp
      · rw [if_pos hpm] at hin
        rw [List.mem_filter] at hin
        obtain ⟨hi, hmat⟩ := hin
        simp only [instanceMatches, Bool.and_eq_true, beq_iff_eq] at hmat
        simp only [allIds, List.mem_flatMap, List.mem_map]
        exact ⟨grp, hg, inst, hi, hmat.1.symm⟩
      · rw [if_neg hpm] at hin
        exact absurd hin (List.not_mem_nil inst)
    · intro _; trivial

/-- C1 (counterexample): a GroupSpec whose own two instances share an id
passes every validation, raises no conflict against the empty registry, and
is appended — but the resulting registry violates R2, so the successful
AddGroup does not preserve R2 as the claim states. -/
theorem addGroup_r2_not_preserved :
    (envAll.isValidGroupName gDup.name = true ∧
     (ensureDirectoryExists envAll gDup.home_directory []).1 = true ∧
     envAll.potentiallyHostArtifactsPath gDup.host_artifacts_path = true ∧
     gDup.instances.all (fun inst => envAll.isValidInstanceName inst.name) =
       true) ∧
    ¬ (groupPairConflict dataNil gDup ∨ instanceIdConflict dataNil gDup) ∧
    (addInstanceGroup envAll gDup dataNil []).result = .ok gDup ∧
    (addInstanceGroup envAll gDup dataNil []).data =
      { instance_groups := [gDup], acloud_translator_optout := false } ∧
    ¬ R2 (addInstanceGroup envAll gDup dataNil []).data :=
  ⟨⟨rfl, rfl, rfl, rfl⟩, by decide, rfl, rfl, by decide⟩

/-- C1 (amended): for every GroupSpec whose fields pass validation and whose
own instance ids are distinct, AddGroup fails with Conflict exactly when
some existing group shares the (home, group-name) pair or some existing
instance shares an id with the spec; on Conflict the persisted registry is
unchanged, and otherwise the group is appended, preserving R1 and R2. -/
theorem addGroup_conflict_characterization (env : Env) (g : InstanceGroup)
    (data : PersistentData) (fs : List String)
    (hname : env.isValidGroupName g.name = true)
    (hdir : (ensureDirectoryExists env g.home_directory fs).1 = true)
    (hart : env.potentiallyHostArtifactsPath g.host_artifacts_path = true)
    (hinames : ∀ inst ∈ g.instances, env.isValidInstanceName inst.name = true)
    (hids : (g.instances.map (fun i => i.id)).Nodup)
    (hR1 : R1 data) (hR2 : R2 data) :
    ((addInstanceGroup env g data fs).result = .error .conflict ↔
      (groupPairConflict data g ∨ instanceIdConflict data g)) ∧
    ((addInstanceGroup env g data fs).result = .error .conflict →
      (addInstanceGroup env g data fs).data = data) ∧
    (¬ (groupPairConflict data g ∨ instanceIdConflict data g) →
      (addInstanceGroup env g data fs).result = .ok g ∧
      (addInstanceGroup env g data fs).data =
        { data with instance_groups := data.instance_groups ++ [g] } ∧
      R1 (addInstanceGroup env g data fs).data ∧
      R2 (addInstanceGroup env g data fs).data) := by
  have hnames' :
      (g.instances.any fun inst => !env.isValidInstanceName inst.name) =
        false := by
    simp only [List.any_eq_false, Bool.not_eq_true']
    intro inst hm h
    rw [hinames inst hm] at h
    exact Bool.noConfusion h
  have hany :
      (g.instances.any fun inst =>
        !(findInstancesData data ⟨none, some inst.id, none, none⟩).isEmpty) =
          true ↔ instanceIdConflict data g := by
    simp only [List.any_eq_true, Bool.not_eq_true', instanceIdConflict]
    constructor
    · rintro ⟨inst, hm, hne⟩
      exact ⟨inst, hm,
        (findInstancesData_id_isEmpty_false_iff data inst.id).mp hne⟩
    · rintro ⟨inst, hm, hmem⟩
      exact ⟨inst, hm,
        (findInstancesData_id_isEmpty_false_iff data inst.id).mpr hmem⟩
  have hred : addInstanceGroup env g data fs =
      (if !(findGroupsData data
          ⟨some g.home_directory, none, some g.name, none⟩).isEmpty then
        ⟨.error .conflict, data, (ensureDirectoryExists env g.home_directory fs).2⟩
      else if g.instances.any fun inst =>
          !(findInstancesData data ⟨none, some inst.id, none, none⟩).isEmpty then
        ⟨.error .conflict, data, (ensureDirectoryExists env g.home_directory fs).2⟩
      else
        ⟨.ok g, { data with instance_groups := data.instance_groups ++ [g] },
         (ensureDirectoryExists env g.home_directory fs).2⟩) := by
    simp only [addInstanceGroup, hname, hdir, hart, hnames', Bool.not_true,
      Bool.false_eq_true, if_false]
  cases hb1 :
      (findGroupsData data
        ⟨some g.home_directory, none, some g.name, none⟩).isEmpty with
  | false =>
    have hc1 : groupPairConflict data g :=
      (findGroupsData_conflict_iff data g).mp hb1
    have houtcome : addInstanceGroup env g data fs =
        ⟨.error .conflict, data,
         (ensureDirectoryExists env g.home_directory fs).2⟩ := by
      rw [hred]; simp [hb1]
    refine ⟨?_, ?_, ?_⟩
    · rw [houtcome]
      exact iff_of_true rfl (Or.inl hc1)
    · intro _; rw [houtcome]
    · intro hnot; exact absurd (Or.inl hc1) hnot
  | true =>
    have hnc1 : ¬ groupPairConflict data g := by
      intro hc
      rw [← findGroupsData_conflict_iff data g, hb1] at hc
      exact Bool.noConfusion hc
    cases hb2 : (g.instances.any fun inst =>
        !(findInstancesData data ⟨none, some inst.id, none, none⟩).isEmpty) with
    | true =>
      have hc2 : instanceIdConflict data g := hany.mp hb2
      have houtcome : addInstanceGroup env g data fs =
          ⟨.error .conflict, data,
           (ensureDirectoryExists env g.home_directory fs).2⟩ := by
        rw [hred]; simp [hb1, hb2]
      refine ⟨?_, ?_, ?_⟩
      · rw [houtcome]
        exact iff_of_true rfl (Or.inr hc2)
      · intro _; rw [houtcome]
      · intro hnot; exact absurd (Or.inr hc2) hnot
    | false =>
      have hnc2 : ¬ instanceIdConflict data g := by
        intro hc
        rw [← hany, hb2] at hc
        exact Bool.noConfusion hc
      have houtcome : addInstanceGroup env g data fs =
          ⟨.ok g, { data with instance_groups := data.instance_groups ++ [g] },
           (ensureDirectoryExists env g.home_directory fs).2⟩ := by
        rw [hred]; simp [hb1, hb2]
      have hR1new :
          R1 { data with instance_groups := data.instance_groups ++ [g] } := by
        unfold R1 at hR1 ⊢
        rw [List.map_append, List.nodup_append]
        refine ⟨hR1, by simp, ?_⟩
        intro pr hpr hpr2
        simp only [List.map_cons, List.map_nil, List.mem_singleton] at hpr2
        subst hpr2
        rw [List.mem_map] at hpr
        obtain ⟨g', hg', heq⟩ := hpr
        have h1 : g'.name = g.name := congrArg Prod.fst heq
        have h2 : g'.home_directory = g.home_directory :=
          congrArg Prod.snd heq
        exact hnc1 ⟨g', hg', h2, h1⟩
      have hall :
          allIds { data with
            instance_groups := data.instance_groups ++ [g] } =
          allIds data ++ g.instances.map (fun i => i.id) := by
        simp [allIds, List.flatMap_append]
      have hR2new :
          R2 { data with instance_groups := data.instance_groups ++ [g] } := by
        unfold R2
        rw [hall, List.nodup_append]
        refine ⟨hR2, hids, ?_⟩
        intro k hk1 hk2
        rw [List.mem_map] at hk2
        obtain ⟨inst, hi, hkid⟩ := hk2
        exact hnc2 ⟨inst, hi, hkid ▸ hk1⟩
      refine ⟨?_, ?_, ?_⟩
      · rw [houtcome]
        refine iff_of_false ?_ ?_
        · intro h; exact Except.noConfusion h
        · rintro (hc | hc)
          · exact hnc1 hc
          · exact hnc2 hc
      · intro h
        rw [houtcome] at h
        exact absurd h (fun hc => Except.noConfusion hc)
      · intro _
        rw [houtcome]
        exact ⟨rfl, rfl, hR1new, hR2new⟩

theorem addGroup_conflict_characterization_witness :
    (addInstanceGroup envAll gOne dataNil []).result = .ok gOne ∧
    R2 (addInstanceGroup envAll gOne dataNil []).data := by
  have h := addGroup_conflict_characterization envAll gOne dataNil []
    rfl rfl rfl (by decide) (by decide) (by decide) (by decide)
  have h3 := h.2.2 (by decide)
  exact ⟨h3.1, h3.2.2.2⟩

theorem daemonSetterValue_cases (v : String) :
    daemonSetterValue v = .ok () ∨ daemonSetterValue v = .error .invalid := by
  unfold daemonSetterValue
  split_ifs <;> simp

theorem daemonSetterExact_cases (key : String) :
    daemonSetterExact key = .ok () ∨
    daemonSetterExact key = .error .invalid := by
  unfold daemonSetterExact
  split_ifs <;> simp

theorem consume_nodaemon_mem (args : List String)
    (hmem : "--nodaemon" ∈ args ∨ "-nodaemon" ∈ args) :
    consumeDaemonModeFlag args = .error .invalid := by
  induction args with
  | nil => rcases hmem with h | h <;> exact absurd h (List.not_mem_nil _)
  | cons a rest ih =>
    by_cases ha1 : a = "--nodaemon"
    · subst ha1; rfl
    · by_cases ha2 : a = "-nodaemon"
      · subst ha2; rfl
      · have hrest : "--nodaemon" ∈ rest ∨ "-nodaemon" ∈ rest := by
          rcases hmem with h | h
          · rcases List.mem_cons.mp h with he | hr
            · exact absurd he.symm ha1
            · exact Or.inl hr
          · rcases List.mem_cons.mp h with he | hr
            · exact absurd he.symm ha2
            · exact Or.inr hr
        have ihres := ih hrest
        simp only [consumeDaemonModeFlag]
        by_cases hb1 : strStartsWith "-daemon=" a = true
        · rw [if_pos hb1]
          rcases daemonSetterValue_cases (strDropChars a 8) with h | h <;>
            rw [h] <;> exact ihres
        · rw [if_neg hb1]
          by_cases hb2 : strStartsWith "--daemon=" a = true
          · rw [if_pos hb2]
            rcases daemonSetterValue_cases (strDropChars a 9) with h | h <;>
              rw [h] <;> exact ihres
          · rw [if_neg hb2]
            by_cases hb3 : (a == "-daemon" || a == "--daemon" ||
                a == "-nodaemon" || a == "--nodaemon") = true
            · rw [if_pos hb3]
              rcases daemonSetterExact_cases a with h | h <;> rw [h] <;>
                exact ihres
            · rw [if_neg hb3, ihres]

theorem any3_or (v : String) :
    (["y", "yes", "true"].any fun t => equalsIgnoreCase t v) =
      (equalsIgnoreCase "y" v || equalsIgnoreCase "yes" v ||
       equalsIgnoreCase "true" v) := by
  simp [Bool.or_assoc]

/-- C6: every arg list containing --nodaemon or -nodaemon is rejected; a
bare --daemon is consumed and accepted; --daemon=<v> is accepted iff v has
no comma and equals y, yes or true case-insensitively, and rejected
otherwise (n, no, false included); when consumption succeeds, --daemon=true
is appended unconditionally. -/
theorem daemon_flag_normalization :
    (∀ args, ("--nodaemon" ∈ args ∨ "-nodaemon" ∈ args) →
        consumeDaemonModeFlag args = .error .invalid) ∧
    (∀ rest, consumeDaemonModeFlag ("--daemon" :: rest) =
        consumeDaemonModeFlag rest) ∧
    (∀ v rest, consumeDaemonModeFlag (("--daemon=" ++ v) :: rest) =
        if (!strContains v "," &&
            (equalsIgnoreCase "y" v || equalsIgnoreCase "yes" v ||
             equalsIgnoreCase "true" v)) = true then
          consumeDaemonModeFlag rest
        else .error .invalid) ∧
    (∀ args args1, consumeDaemonModeFlag args = .ok args1 →
        normalizeDaemonArgs args = .ok (args1 ++ ["--daemon=true"])) := by
  refine ⟨consume_nodaemon_mem, fun rest => rfl, ?_, ?_⟩
  · intro v rest
    have hpre1 : strStartsWith "-daemon=" ("--daemon=" ++ v) = false := rfl
    have hpre2 : strStartsWith "--daemon=" ("--daemon=" ++ v) = true := rfl
    have hdrop : strDropChars ("--daemon=" ++ v) 9 = v := rfl
    simp only [consumeDaemonModeFlag, hpre1, hpre2, hdrop,
      Bool.false_eq_true, if_false, if_true]
    unfold daemonSetterValue
    cases hc : strContains v "," with
    | true => simp [hc]
    | false =>
      simp only [hc, Bool.not_false, Bool.true_and, Bool.false_eq_true,
        if_false, any3_or]
      cases hor : (equalsIgnoreCase "y" v || equalsIgnoreCase "yes" v ||
          equalsIgnoreCase "true" v) with
      | true => rfl
      | false => rfl
  · intro args args1 h
    simp [normalizeDaemonArgs, h]

theorem daemon_flag_normalization_witness :
    consumeDaemonModeFlag ["--nodaemon"] = .error .invalid ∧
    normalizeDaemonArgs ["--daemon=TRUE", "x"] =
      .ok (["x"] ++ ["--daemon=true"]) :=
  ⟨daemon_flag_normalization.1 ["--nodaemon"] (Or.inl (by decide)),
   daemon_flag_normalization.2.2.2 ["--daemon=TRUE", "x"] ["x"] rfl⟩

theorem strStartsWith_tilde_slash (hv : String)
    (hp : strStartsWith "~/" hv = true) : strStartsWith "~" hv = true := by
  obtain ⟨l⟩ := hv
  cases l with
  | nil => exact absurd hp (by decide)
  | cons c rest =>
    have h1 : strStartsWith "~/" ⟨c :: rest⟩ =
        (('~' == c) && listStartsWith ['/'] rest) := rfl
    have h2 : strStartsWith "~" ⟨c :: rest⟩ = (('~' == c) && true) := rfl
    rw [h1, Bool.and_eq_true] at hp
    rw [h2, Bool.and_eq_true]
    exact ⟨hp.1, rfl⟩

/-- C7: a client-supplied HOME starting with a tilde makes the handler fail
with Invalid before any registry mutation (the final registry equals the
initial one); any other non-empty HOME is rewritten through the absolute
path emulation with the client's working directory as base. -/
theorem home_tilde_rejected_before_mutation
    (emu : String → String → String → String) (env : Env)
    (collab : StopCollab) (cwd sys : String) (envs : List (String × String))
    (mkInfo : List (String × String) → GroupCreationInfo)
    (infop : ExitInfo) (data : PersistentData) (fs : List String)
    (hv : String) (hhome : getEnv envs "HOME" = some hv) :
    (strStartsWith "~" hv = true →
      handleHomeAndLaunch emu env collab cwd sys envs mkInfo infop data fs =
        (.error .invalid, data)) ∧
    (hv ≠ "" → strStartsWith "~" hv = false →
      resolveHomeEnv emu cwd sys envs =
        .ok (setEnv envs "HOME" (emu cwd sys hv))) := by
  constructor
  · intro htil
    have hne : (hv == "") = false := by
      rcases Bool.eq_false_or_eq_true (hv == "") with h | h
      · have he : hv = "" := eq_of_beq h
        subst he
        exact absurd htil (by decide)
      · exact h
    have hres : resolveHomeEnv emu cwd sys envs = .error .invalid := by
      unfold resolveHomeEnv
      rw [hhome]
      simp [hne, htil]
    unfold handleHomeAndLaunch
    rw [hres]
  · intro hne0 htilF
    have hne : (hv == "") = false := by
      rcases Bool.eq_false_or_eq_true (hv == "") with h | h
      · exact absurd (eq_of_beq h) hne0
      · exact h
    have hts : strStartsWith "~/" hv = false := by
      rcases Bool.eq_false_or_eq_true (strStartsWith "~/" hv) with h | h
      · rw [strStartsWith_tilde_slash hv h] at htilF
        exact Bool.noConfusion htilF
      · exact h
    unfold resolveHomeEnv
    rw [hhome]
    simp [hne, htilF, hts]

theorem home_tilde_rejected_witness :
    handleHomeAndLaunch (fun _ _ p => p) envAll collabAll "/cwd" "/sys"
      envsTilde (fun _ => infoNine) exitedOne dataNil [] =
      (.error .invalid, dataNil) := by
  have h := home_tilde_rejected_before_mutation (fun _ _ p => p) envAll
    collabAll "/cwd" "/sys" envsTilde (fun _ => infoNine) exitedOne dataNil
    [] "~/x" rfl
  exact h.1 rfl

/-- C3: after stripping the client-supplied instance-identity flags, ids
that are not sorted or not a consecutive run yield exactly
--instance_nums=<join> (and neither --num_instances nor --base_instance_num,
with the environment untouched); sorted consecutive ids with more than one
element yield --num_instances=<len>, --base_instance_num=<min> iff the
launcher accepts that flag, CUTTLEFISH_INSTANCE=<min> in the environment,
and no --instance_nums. -/
theorem updateInstanceArgs_canonicalization (intro : Introspector)
    (args : List String) (envs : List (String × String))
    (instances : List PerInstanceInfo) :
    (((idsMax (idsOf instances) - idsMin (idsOf instances) ==
        (idsOf instances).length - 1) && isSortedLe (idsOf instances)) =
          false →
      intro.accepts "instance_nums" = true →
      updateInstanceArgsAndEnvs intro args envs instances =
        .ok (consumeGflagsCompatFlags
              ["instance_nums", "num_instances", "base_instance_num"] args ++
            ["--instance_nums=" ++
              String.intercalate "," ((idsOf instances).map toString)],
          envs)) ∧
    (((idsMax (idsOf instances) - idsMin (idsOf instances) ==
        (idsOf instances).length - 1) && isSortedLe (idsOf instances)) =
          true →
      1 < instances.length →
      intro.accepts "num_instances" = true →
      updateInstanceArgsAndEnvs intro args envs instances =
        .ok (consumeGflagsCompatFlags
              ["instance_nums", "num_instances", "base_instance_num"] args ++
            ["--num_instances=" ++ toString (idsOf instances).length] ++
            (if intro.accepts "base_instance_num" = true then
              ["--base_instance_num=" ++ toString (idsMin (idsOf instances))]
            else []),
          setEnv envs "CUTTLEFISH_INSTANCE"
            (toString (idsMin (idsOf instances))))) := by
  constructor
  · intro hcond hacc
    have hcond' : (!(idsMax (idsOf instances) - idsMin (idsOf instances) ==
        (idsOf instances).length - 1) || !isSortedLe (idsOf instances)) =
          true := by
      rw [← Bool.not_and, hcond]
      rfl
    simp only [updateInstanceArgsAndEnvs, idsOf] at *
    rw [if_pos hcond', if_pos hacc]
  · intro hcond hlen hnum
    have hcond' : (!(idsMax (idsOf instances) - idsMin (idsOf instances) ==
        (idsOf instances).length - 1) || !isSortedLe (idsOf instances)) =
          false := by
      rw [← Bool.not_and, hcond]
      rfl
    have hlen' : 1 < (instances.map (fun i => i.instance_id)).length := by
      rw [List.length_map]
      exact hlen
    have hnot : ¬ ((!(idsMax (idsOf instances) - idsMin (idsOf instances) ==
        (idsOf instances).length - 1) || !isSortedLe (idsOf instances)) =
          true) := by
      rw [hcond']
      exact Bool.noConfusion
    have hgate : ¬ (((instances.map (fun i => i.instance_id)).length > 1 &&
        !intro.accepts "num_instances") = true) := by
      rw [hnum]
      simp
    simp only [updateInstanceArgsAndEnvs, idsOf] at *
    rw [if_neg hnot, if_neg hgate, if_pos hlen']
    cases hbase : intro.accepts "base_instance_num" with
    | true => rfl
    | false => simp

theorem updateInstanceArgs_canonicalization_witness :
    updateInstanceArgsAndEnvs introAll ["x"] [] instsGap =
      .ok (consumeGflagsCompatFlags
            ["instance_nums", "num_instances", "base_instance_num"] ["x"] ++
          ["--instance_nums=" ++
            String.intercalate "," ((idsOf instsGap).map toString)],
        []) :=
  (updateInstanceArgs_canonicalization introAll ["x"] [] instsGap).1
    (by decide) rfl

/-- C2: when the registered group's launcher child terminates other than by
a zero-status normal exit, the handler invokes the force-stop collaborator
with the first instance id of the group, removes the group from the
registry, and returns the child's exit-derived response; on a zero-status
normal exit nothing is removed and no force-stop happens. -/
theorem launch_rollback_on_child_failure (env : Env) (collab : StopCollab)
    (info : GroupCreationInfo) (infop : ExitInfo) (data : PersistentData)
    (fs : List String) (first : PerInstanceInfo)
    (restInsts : List PerInstanceInfo)
    (hreg : (updateInstanceDatabase env info data fs).result =
      .ok (groupProtoOfInfo info))
    (hfirst : info.instances = first :: restInsts)
    (hcoll : collab.collectorOk = true)
    (hstop : collab.stopOk first.instance_id = true) :
    ((infop.si_code ≠ SiCode.exited ∨ infop.si_status ≠ 0) →
      (launchDeviceInterruptible env collab info infop data fs).events =
        [.forceStopInvoked first.instance_id, .groupRemoved info.home] ∧
      (∀ g' ∈ (launchDeviceInterruptible env collab info infop data
          fs).data.instance_groups, g'.home_directory ≠ info.home) ∧
      (launchDeviceInterruptible env collab info infop data fs).result =
        .ok (responseFromSiginfo infop)) ∧
    ((infop.si_code = SiCode.exited ∧ infop.si_status = 0) →
      (launchDeviceInterruptible env collab info infop data fs).events =
        [] ∧
      (launchDeviceInterruptible env collab info infop data fs).data =
        (updateInstanceDatabase env info data fs).data) := by
  constructor
  · intro hfail
    have hbne : (infop.si_code != SiCode.exited || infop.si_status != 0) =
        true := by
      rcases hfail with h | h
      · have hb : (infop.si_code != SiCode.exited) = true := by
          simpa [bne_iff_ne] using h
        simp [hb]
      · have hb : (infop.si_status != 0) = true := by
          simpa [bne_iff_ne] using h
        simp [hb]
    have hresetres : cvdResetGroup collab info.instances =
        .ok (⟨.okCode, ""⟩, [.forceStopInvoked first.instance_id]) := by
      unfold cvdResetGroup
      rw [hcoll, hfirst]
      simp [hstop]
    have hld : launchDevice collab info.instances infop =
        (.ok (responseFromSiginfo infop),
         [.forceStopInvoked first.instance_id]) := by
      unfold launchDevice
      rw [if_pos hbne, hresetres]
      rfl
    have hq : (infop.si_code == SiCode.exited && infop.si_status == 0) =
        false := by
      cases hq2 : (infop.si_code == SiCode.exited && infop.si_status == 0)
        with
      | false => rfl
      | true =>
        exfalso
        rw [Bool.and_eq_true] at hq2
        rcases hfail with h | h
        · exact h (eq_of_beq hq2.1)
        · exact h (eq_of_beq hq2.2)
    have hrespcode : (responseFromSiginfo infop).code = .internal := by
      unfold responseFromSiginfo
      rw [hq]
      rfl
    have hout : launchDeviceInterruptible env collab info infop data fs =
        ⟨.ok (responseFromSiginfo infop),
         removeGroupsByHome (updateInstanceDatabase env info data fs).data
           info.home,
         (updateInstanceDatabase env info data fs).fs,
         [.forceStopInvoked first.instance_id] ++
           [.groupRemoved info.home]⟩ := by
      simp only [launchDeviceInterruptible]
      rw [hreg, hld]
      have hcode : ((responseFromSiginfo infop).code != StatusCode.okCode) =
          true := by
        rw [hrespcode]
        rfl
      simp [hcode]
    refine ⟨?_, ?_, ?_⟩
    · rw [hout]
      rfl
    · rw [hout]
      intro g' hm
      have hm2 := (List.mem_filter.mp hm).2
      exact bne_iff_ne.mp hm2
    · rw [hout]
  · intro hok
    obtain ⟨h1, h2⟩ := hok
    have hbne : (infop.si_code != SiCode.exited || infop.si_status != 0) =
        false := by
      simp [h1, h2]
    have hld : launchDevice collab info.instances infop =
        (.ok (responseFromSiginfo infop), []) := by
      unfold launchDevice
      rw [if_neg (by rw [hbne]; exact Bool.noConfusion)]
    have hrespok : responseFromSiginfo infop = ⟨.okCode, ""⟩ := by
      unfold responseFromSiginfo
      simp [h1, h2]
    have hout : launchDeviceInterruptible env collab info infop data fs =
        ⟨.ok (responseFromSiginfo infop),
         (updateInstanceDatabase env info data fs).data,
         (updateInstanceDatabase env info data fs).fs, []⟩ := by
      simp only [launchDeviceInterruptible]
      rw [hreg, hld]
      have hcode : ((responseFromSiginfo infop).code != StatusCode.okCode) =
          false := by
        rw [hrespok]
        rfl
      simp [hcode]
    exact ⟨by simp [hout], by simp [hout]⟩

theorem sig_contains_append_single (l : List SigEvent) (a b : SigEvent) :
    (l ++ [b]).contains a = (l.contains a || (a == b)) := by
  induction l with
  | nil => cases a <;> cases b <;> rfl
  | cons e rest ih =>
    simp only [List.cons_append, List.contains_cons, ih, Bool.or_assoc]

theorem noWAC_append_close (l : List SigEvent)
    (h : noWriteAfterClose l = true) :
    noWriteAfterClose (l ++ [SigEvent.closeFd]) = true := by
  induction l with
  | nil => rfl
  | cons e rest ih =>
    cases e with
    | writeFd => exact ih h
    | closeFd =>
      have h' : rest.contains SigEvent.writeFd = false := by
        have := h
        simp only [noWriteAfterClose, Bool.not_eq_true'] at this
        exact this
      simp only [List.cons_append, noWriteAfterClose, List.append_eq,
        sig_contains_append_single, h']
      rfl

theorem noWAC_append_write (l : List SigEvent)
    (h : noWriteAfterClose l = true) (hc : l.count SigEvent.closeFd = 0) :
    noWriteAfterClose (l ++ [SigEvent.writeFd]) = true := by
  induction l with
  | nil => rfl
  | cons e rest ih =>
    cases e with
    | writeFd =>
      have hc' : rest.count SigEvent.closeFd = 0 := by
        simpa [List.count_cons] using hc
      exact ih h hc'
    | closeFd =>
      exfalso
      simp [List.count_cons] at hc

theorem countP_set_balance (l : List HandlerState) (i : Nat)
    (v hs : HandlerState) (p : HandlerState → Bool)
    (hi : l.get? i = some hs) :
    (l.set i v).countP p + (if p hs then 1 else 0) =
      l.countP p + (if p v then 1 else 0) := by
  induction l generalizing i with
  | nil => simp at hi
  | cons a rest ih =>
    cases i with
    | zero =>
      have ha : a = hs := Option.some.inj hi
      subst ha
      simp only [List.set_cons_zero, List.countP_cons]
      omega
    | succ j =>
      have hi' : rest.get? j = some hs := hi
      have := ih j hi'
      simp only [List.set_cons_succ, List.countP_cons]
      omega

theorem countP_pos_of_get? (l : List HandlerState) (i : Nat)
    (hs : HandlerState) (p : HandlerState → Bool) (hi : l.get? i = some hs)
    (hp : p hs = true) : 1 ≤ l.countP p := by
  have hmem : hs ∈ l := List.get?_mem hi
  have := List.countP_pos (p := p) (l := l) |>.mpr ⟨hs, hmem, hp⟩
  omega

theorem sigStep_preserves_inv (s : SigSys) (lab : SigLab) (h : SigInv s) :
    SigInv (sigStep s lab) := by
  obtain ⟨slot, handlers, tdone, events⟩ := s
  obtain ⟨hcount, hwac⟩ := h
  simp only [SigInv, fdCopies, closes] at hcount hwac ⊢
  cases lab with
  | t =>
    cases tdone with
    | true => exact ⟨hcount, hwac⟩
    | false =>
      cases slot with
      | fdVal =>
        simp only [sigStep, if_false, Bool.false_eq_true]
        refine ⟨?_, noWAC_append_close _ hwac⟩
        simp only [List.count_append] at *
        simp at hcount ⊢
        omega
      | inUse =>
        simp only [sigStep, if_false, Bool.false_eq_true]
        refine ⟨?_, by simpa using hwac⟩
        simp at hcount ⊢
        omega
      | closedSent =>
        simp only [sigStep, if_false, Bool.false_eq_true]
        refine ⟨?_, by simpa using hwac⟩
        simp at hcount ⊢
        omega
  | h i =>
    cases hg : handlers.get? i with
    | none =>
      simp only [sigStep, hg]
      exact ⟨hcount, hwac⟩
    | some hs =>
      have hbal := fun (v : HandlerState) =>
        countP_set_balance handlers i v hs holdsFd hg
      cases hs with
      | idle =>
        simp only [sigStep, hg, handlerAction]
        refine ⟨?_, by simpa using hwac⟩
        have hb := hbal (.swapped slot)
        simp only [holdsFd] at hb
        cases slot with
        | fdVal => simp at hcount hb ⊢; omega
        | inUse => simp at hcount hb ⊢; omega
        | closedSent => simp at hcount hb ⊢; omega
      | swapped x =>
        simp only [sigStep, hg, handlerAction]
        have hb := hbal (.wrote x)
        simp only [holdsFd] at hb
        cases x with
        | fdVal =>
          have hK : events.count SigEvent.closeFd = 0 := by
            have hcp : 1 ≤ handlers.countP holdsFd :=
              countP_pos_of_get? handlers i (.swapped .fdVal) holdsFd hg rfl
            omega
          refine ⟨?_, noWAC_append_write _ hwac hK⟩
          simp only [List.count_append] at *
          simp at hcount hb ⊢
          omega
        | inUse =>
          refine ⟨?_, by simpa using hwac⟩
          simp at hcount hb ⊢
          omega
        | closedSent =>
          refine ⟨?_, by simpa using hwac⟩
          simp at hcount hb ⊢
          omega
      | wrote x =>
        simp only [sigStep, hg, handlerAction]
        have hb := hbal (.restored slot)
        simp only [holdsFd] at hb
        refine ⟨?_, by simpa using hwac⟩
        cases x with
        | fdVal =>
          cases slot with
          | fdVal => simp at hcount hb ⊢; omega
          | inUse => simp at hcount hb ⊢; omega
          | closedSent => simp at hcount hb ⊢; omega
        | inUse =>
          cases slot with
          | fdVal => simp at hcount hb ⊢; omega
          | inUse => simp at hcount hb ⊢; omega
          | closedSent => simp at hcount hb ⊢; omega
        | closedSent =>
          cases slot with
          | fdVal => simp at hcount hb ⊢; omega
          | inUse => simp at hcount hb ⊢; omega
          | closedSent => simp at hcount hb ⊢; omega
      | restored x =>
        simp only [sigStep, hg, handlerAction]
        have hb := hbal .finished
        simp only [holdsFd] at hb
        cases x with
        | inUse =>
          refine ⟨?_, by simpa using hwac⟩
          simp at hcount hb ⊢
          omega
        | fdVal =>
          cases slot with
          | fdVal =>
            refine ⟨?_, noWAC_append_close _ hwac⟩
            simp only [List.count_append] at *
            simp at hcount hb ⊢
            omega
          | inUse =>
            refine ⟨?_, by simpa using hwac⟩
            simp at hcount hb ⊢
            omega
          | closedSent =>
            refine ⟨?_, by simpa using hwac⟩
            simp at hcount hb ⊢
            omega
        | closedSent =>
          cases slot with
          | fdVal =>
            refine ⟨?_, noWAC_append_close _ hwac⟩
            simp only [List.count_append] at *
            simp at hcount hb ⊢
            omega
          | inUse =>
            refine ⟨?_, by simpa using hwac⟩
            simp at hcount hb ⊢
            omega
          | closedSent =>
            refine ⟨?_, by simpa using hwac⟩
            simp at hcount hb ⊢
            omega
      | finished =>
        simp only [sigStep, hg, handlerAction]
        have hb := hbal .finished
        simp only [holdsFd] at hb
        refine ⟨?_, by simpa using hwac⟩
        simp at hcount hb ⊢
        omega

theorem sigRun_cons (s : SigSys) (lab : SigLab) (rest : List SigLab) :
    sigRun s (lab :: rest) = sigRun (sigStep s lab) rest := rfl

theorem sigRun_nil (s : SigSys) : sigRun s [] = s := rfl

theorem sigRun_append (s : SigSys) (l1 l2 : List SigLab) :
    sigRun s (l1 ++ l2) = sigRun (sigRun s l1) l2 :=
  List.foldl_append sigStep s l1 l2

theorem sigRun_preserves_inv (s : SigSys) (sched : List SigLab)
    (h : SigInv s) : SigInv (sigRun s sched) := by
  induction sched generalizing s with
  | nil => exact h
  | cons lab rest ih => exact ih (sigStep s lab) (sigStep_preserves_inv s lab h)

theorem countP_replicate_idle (n : Nat) :
    (List.replicate n HandlerState.idle).countP holdsFd = 0 := by
  induction n with
  | zero => rfl
  | succ m ih => simp [List.replicate_succ, List.countP_cons, ih, holdsFd]

theorem sigInit_inv (n : Nat) : SigInv (sigInit n) := by
  refine ⟨?_, rfl⟩
  simp [fdCopies, closes, sigInit, countP_replicate_idle]

theorem get?_set_self (l : List HandlerState) (i : Nat) (v : HandlerState)
    (h : i < l.length) : (l.set i v).get? i = some v := by
  simp [List.get?_eq_getElem?, List.getElem?_set_eq_of_lt _ h]

theorem sigStep_h_eq (slot : SlotVal) (handlers : List HandlerState)
    (tdone : Bool) (events : List SigEvent) (i : Nat) (hs : HandlerState)
    (hg : handlers.get? i = some hs) :
    sigStep ⟨slot, handlers, tdone, events⟩ (.h i) =
      ⟨(handlerAction slot hs).1, handlers.set i (handlerAction slot hs).2.1,
       tdone, events ++ (handlerAction slot hs).2.2⟩ := by
  simp only [sigStep, hg]

theorem sigStep_t_eq (slot : SlotVal) (handlers : List HandlerState)
    (events : List SigEvent) :
    sigStep ⟨slot, handlers, false, events⟩ .t =
      ⟨.closedSent, handlers, true,
       events ++ (if slot == .fdVal then [.closeFd] else [])⟩ := rfl

theorem run_hblock_armed (s : SigSys) (i : Nat)
    (hi : s.handlers.get? i = some .idle) (hs : s.slot = .fdVal) :
    sigRun s (hblock i) =
      { slot := .fdVal, handlers := s.handlers.set i .finished,
        tdone := s.tdone, events := s.events ++ [.writeFd] } := by
  have hlt : i < s.handlers.length := (List.get?_eq_some.mp hi).choose
  obtain ⟨slot, handlers, tdone, events⟩ := s
  have hs' : slot = SlotVal.fdVal := hs
  subst hs'
  have hi' : handlers.get? i = some HandlerState.idle := hi
  have hlt' : i < handlers.length := hlt
  have e1 := sigStep_h_eq SlotVal.fdVal handlers tdone events i _ hi'
  rw [show handlerAction SlotVal.fdVal HandlerState.idle =
    (SlotVal.inUse, HandlerState.swapped SlotVal.fdVal, []) from rfl] at e1
  dsimp only at e1
  have hg2 : (handlers.set i (HandlerState.swapped SlotVal.fdVal)).get? i =
      some (HandlerState.swapped SlotVal.fdVal) :=
    get?_set_self _ _ _ hlt'
  have e2 := sigStep_h_eq SlotVal.inUse
    (handlers.set i (HandlerState.swapped SlotVal.fdVal)) tdone
    (events ++ []) i _ hg2
  rw [show handlerAction SlotVal.inUse
      (HandlerState.swapped SlotVal.fdVal) =
    (SlotVal.inUse, HandlerState.wrote SlotVal.fdVal, [SigEvent.writeFd])
    from rfl] at e2
  dsimp only at e2
  rw [List.set_set] at e2
  have hg3 : (handlers.set i (HandlerState.wrote SlotVal.fdVal)).get? i =
      some (HandlerState.wrote SlotVal.fdVal) :=
    get?_set_self _ _ _ hlt'
  have e3 := sigStep_h_eq SlotVal.inUse
    (handlers.set i (HandlerState.wrote SlotVal.fdVal)) tdone
    ((events ++ []) ++ [SigEvent.writeFd]) i _ hg3
  rw [show handlerAction SlotVal.inUse (HandlerState.wrote SlotVal.fdVal) =
    (SlotVal.fdVal, HandlerState.restored SlotVal.inUse, []) from rfl] at e3
  dsimp only at e3
  rw [List.set_set] at e3
  have hg4 : (handlers.set i (HandlerState.restored SlotVal.inUse)).get? i =
      some (HandlerState.restored SlotVal.inUse) :=
    get?_set_self _ _ _ hlt'
  have e4 := sigStep_h_eq SlotVal.fdVal
    (handlers.set i (HandlerState.restored SlotVal.inUse)) tdone
    (((events ++ []) ++ [SigEvent.writeFd]) ++ []) i _ hg4
  rw [show handlerAction SlotVal.fdVal
      (HandlerState.restored SlotVal.inUse) =
    (SlotVal.fdVal, HandlerState.finished, []) from rfl] at e4
  dsimp only at e4
  rw [List.set_set] at e4
  rw [show hblock i = [SigLab.h i, SigLab.h i, SigLab.h i, SigLab.h i]
    from rfl]
  rw [sigRun_cons, e1, sigRun_cons, e2, sigRun_cons, e3, sigRun_cons, e4,
    sigRun_nil]
  simp

theorem run_hblock_torn (s : SigSys) (i : Nat)
    (hi : s.handlers.get? i = some .idle) (hs : s.slot = .closedSent) :
    sigRun s (hblock i) =
      { slot := .closedSent, handlers := s.handlers.set i .finished,
        tdone := s.tdone, events := s.events } := by
  have hlt : i < s.handlers.length := (List.get?_eq_some.mp hi).choose
  obtain ⟨slot, handlers, tdone, events⟩ := s
  have hs' : slot = SlotVal.closedSent := hs
  subst hs'
  have hi' : handlers.get? i = some HandlerState.idle := hi
  have hlt' : i < handlers.length := hlt
  have e1 := sigStep_h_eq SlotVal.closedSent handlers tdone events i _ hi'
  rw [show handlerAction SlotVal.closedSent HandlerState.idle =
    (SlotVal.inUse, HandlerState.swapped SlotVal.closedSent, []) from rfl]
    at e1
  dsimp only at e1
  have hg2 : (handlers.set i
      (HandlerState.swapped SlotVal.closedSent)).get? i =
      some (HandlerState.swapped SlotVal.closedSent) :=
    get?_set_self _ _ _ hlt'
  have e2 := sigStep_h_eq SlotVal.inUse
    (handlers.set i (HandlerState.swapped SlotVal.closedSent)) tdone
    (events ++ []) i _ hg2
  rw [show handlerAction SlotVal.inUse
      (HandlerState.swapped SlotVal.closedSent) =
    (SlotVal.inUse, HandlerState.wrote SlotVal.closedSent, []) from rfl]
    at e2
  dsimp only at e2
  rw [List.set_set] at e2
  have hg3 : (handlers.set i (HandlerState.wrote SlotVal.closedSent)).get? i =
      some (HandlerState.wrote SlotVal.closedSent) :=
    get?_set_self _ _ _ hlt'
  have e3 := sigStep_h_eq SlotVal.inUse
    (handlers.set i (HandlerState.wrote SlotVal.closedSent)) tdone
    ((events ++ []) ++ []) i _ hg3
  rw [show handlerAction SlotVal.inUse
      (HandlerState.wrote SlotVal.closedSent) =
    (SlotVal.closedSent, HandlerState.restored SlotVal.inUse, []) from rfl]
    at e3
  dsimp only at e3
  rw [List.set_set] at e3
  have hg4 : (handlers.set i (HandlerState.restored SlotVal.inUse)).get? i =
      some (HandlerState.restored SlotVal.inUse) :=
    get?_set_self _ _ _ hlt'
  have e4 := sigStep_h_eq SlotVal.closedSent
    (handlers.set i (HandlerState.restored SlotVal.inUse)) tdone
    (((events ++ []) ++ []) ++ []) i _ hg4
  rw [show handlerAction SlotVal.closedSent
      (HandlerState.restored SlotVal.inUse) =
    (SlotVal.closedSent, HandlerState.finished, []) from rfl] at e4
  dsimp only at e4
  rw [List.set_set] at e4
  rw [show hblock i = [SigLab.h i, SigLab.h i, SigLab.h i, SigLab.h i]
    from rfl]
  rw [sigRun_cons, e1, sigRun_cons, e2, sigRun_cons, e3, sigRun_cons, e4,
    sigRun_nil]
  simp

theorem run_gap1 (s : SigSys) (i : Nat)
    (hi : s.handlers.get? i = some .idle) (hs : s.slot = .fdVal)
    (ht : s.tdone = false) :
    sigRun s [.h i, .t, .h i, .h i, .h i] =
      { slot := .closedSent, handlers := s.handlers.set i .finished,
        tdone := true,
        events := s.events ++ [.writeFd, .closeFd] } := by
  have hlt : i < s.handlers.length := (List.get?_eq_some.mp hi).choose
  obtain ⟨slot, handlers, tdone, events⟩ := s
  have hs' : slot = SlotVal.fdVal := hs
  subst hs'
  have ht' : tdone = false := ht
  subst ht'
  have hi' : handlers.get? i = some HandlerState.idle := hi
  have hlt' : i < handlers.length := hlt
  have e1 := sigStep_h_eq SlotVal.fdVal handlers false events i _ hi'
  rw [show handlerAction SlotVal.fdVal HandlerState.idle =
    (SlotVal.inUse, HandlerState.swapped SlotVal.fdVal, []) from rfl] at e1
  dsimp only at e1
  simp only [List.append_nil] at e1
  have e2 := sigStep_t_eq SlotVal.inUse
    (handlers.set i (HandlerState.swapped SlotVal.fdVal)) events
  simp only [show ((SlotVal.inUse == SlotVal.fdVal) : Bool) = false from rfl,
    Bool.false_eq_true, if_false, List.append_nil] at e2
  have hg3 : (handlers.set i (HandlerState.swapped SlotVal.fdVal)).get? i =
      some (HandlerState.swapped SlotVal.fdVal) :=
    get?_set_self _ _ _ hlt'
  have e3 := sigStep_h_eq SlotVal.closedSent
    (handlers.set i (HandlerState.swapped SlotVal.fdVal)) true
    events i _ hg3
  rw [show handlerAction SlotVal.closedSent
      (HandlerState.swapped SlotVal.fdVal) =
    (SlotVal.closedSent, HandlerState.wrote SlotVal.fdVal,
      [SigEvent.writeFd]) from rfl] at e3
  dsimp only at e3
  rw [List.set_set] at e3
  have hg4 : (handlers.set i (HandlerState.wrote SlotVal.fdVal)).get? i =
      some (HandlerState.wrote SlotVal.fdVal) :=
    get?_set_self _ _ _ hlt'
  have e4 := sigStep_h_eq SlotVal.closedSent
    (handlers.set i (HandlerState.wrote SlotVal.fdVal)) true
    (events ++ [SigEvent.writeFd]) i _ hg4
  rw [show handlerAction SlotVal.closedSent
      (HandlerState.wrote SlotVal.fdVal) =
    (SlotVal.fdVal, HandlerState.restored SlotVal.closedSent, []) from rfl]
    at e4
  dsimp only at e4
  rw [List.set_set] at e4
  simp only [List.append_nil] at e4
  have hg5 : (handlers.set i
      (HandlerState.restored SlotVal.closedSent)).get? i =
      some (HandlerState.restored SlotVal.closedSent) :=
    get?_set_self _ _ _ hlt'
  have e5 := sigStep_h_eq SlotVal.fdVal
    (handlers.set i (HandlerState.restored SlotVal.closedSent)) true
    (events ++ [SigEvent.writeFd]) i _ hg5
  rw [show handlerAction SlotVal.fdVal
      (HandlerState.restored SlotVal.closedSent) =
    (SlotVal.closedSent, HandlerState.finished, [SigEvent.closeFd])
    from rfl] at e5
  dsimp only at e5
  rw [List.set_set] at e5
  rw [sigRun_cons, e1, sigRun_cons, e2, sigRun_cons, e3, sigRun_cons, e4,
    sigRun_cons, e5, sigRun_nil]
  simp

theorem sigStep_t_fd (handlers : List HandlerState)
    (events : List SigEvent) :
    sigStep ⟨.fdVal, handlers, false, events⟩ .t =
      ⟨.closedSent, handlers, true, events ++ [.closeFd]⟩ := rfl

theorem sigStep_t_inUse (handlers : List HandlerState)
    (events : List SigEvent) :
    sigStep ⟨.inUse, handlers, false, events⟩ .t =
      ⟨.closedSent, handlers, true, events⟩ := by
  rw [sigStep_t_eq]
  simp

theorem run_gap2 (s : SigSys) (i : Nat)
    (hi : s.handlers.get? i = some .idle) (hs : s.slot = .fdVal)
    (ht : s.tdone = false) :
    sigRun s [.h i, .h i, .t, .h i, .h i] =
      { slot := .closedSent, handlers := s.handlers.set i .finished,
        tdone := true,
        events := s.events ++ [.writeFd, .closeFd] } := by
  have hlt : i < s.handlers.length := (List.get?_eq_some.mp hi).choose
  obtain ⟨slot, handlers, tdone, events⟩ := s
  have hs' : slot = SlotVal.fdVal := hs
  subst hs'
  have ht' : tdone = false := ht
  subst ht'
  have hi' : handlers.get? i = some HandlerState.idle := hi
  have hlt' : i < handlers.length := hlt
  have e1 := sigStep_h_eq SlotVal.fdVal handlers false events i _ hi'
  rw [show handlerAction SlotVal.fdVal HandlerState.idle =
    (SlotVal.inUse, HandlerState.swapped SlotVal.fdVal, []) from rfl] at e1
  dsimp only at e1
  simp only [List.append_nil] at e1
  have hg2 : (handlers.set i (HandlerState.swapped SlotVal.fdVal)).get? i =
      some (HandlerState.swapped SlotVal.fdVal) :=
    get?_set_self _ _ _ hlt'
  have e2 := sigStep_h_eq SlotVal.inUse
    (handlers.set i (HandlerState.swapped SlotVal.fdVal)) false events i _
    hg2
  rw [show handlerAction SlotVal.inUse
      (HandlerState.swapped SlotVal.fdVal) =
    (SlotVal.inUse, HandlerState.wrote SlotVal.fdVal, [SigEvent.writeFd])
    from rfl] at e2
  dsimp only at e2
  rw [List.set_set] at e2
  have e3 := sigStep_t_inUse
    (handlers.set i (HandlerState.wrote SlotVal.fdVal))
    (events ++ [SigEvent.writeFd])
  have hg4 : (handlers.set i (HandlerState.wrote SlotVal.fdVal)).get? i =
      some (HandlerState.wrote SlotVal.fdVal) :=
    get?_set_self _ _ _ hlt'
  have e4 := sigStep_h_eq SlotVal.closedSent
    (handlers.set i (HandlerState.wrote SlotVal.fdVal)) true
    (events ++ [SigEvent.writeFd]) i _ hg4
  rw [show handlerAction SlotVal.closedSent
      (HandlerState.wrote SlotVal.fdVal) =
    (SlotVal.fdVal, HandlerState.restored SlotVal.closedSent, []) from rfl]
    at e4
  dsimp only at e4
  rw [List.set_set] at e4
  simp only [List.append_nil] at e4
  have hg5 : (handlers.set i
      (HandlerState.restored SlotVal.closedSent)).get? i =
      some (HandlerState.restored SlotVal.closedSent) :=
    get?_set_self _ _ _ hlt'
  have e5 := sigStep_h_eq SlotVal.fdVal
    (handlers.set i (HandlerState.restored SlotVal.closedSent)) true
    (events ++ [SigEvent.writeFd]) i _ hg5
  rw [show handlerAction SlotVal.fdVal
      (HandlerState.restored SlotVal.closedSent) =
    (SlotVal.closedSent, HandlerState.finished, [SigEvent.closeFd])
    from rfl] at e5
  dsimp only at e5
  rw [List.set_set] at e5
  rw [sigRun_cons, e1, sigRun_cons, e2, sigRun_cons, e3, sigRun_cons, e4,
    sigRun_cons, e5, sigRun_nil]
  simp

theorem run_gap3 (s : SigSys) (i : Nat)
    (hi : s.handlers.get? i = some .idle) (hs : s.slot = .fdVal)
    (ht : s.tdone = false) :
    sigRun s [.h i, .h i, .h i, .t, .h i] =
      { slot := .closedSent, handlers := s.handlers.set i .finished,
        tdone := true,
        events := s.events ++ [.writeFd, .closeFd] } := by
  have hlt : i < s.handlers.length := (List.get?_eq_some.mp hi).choose
  obtain ⟨slot, handlers, tdone, events⟩ := s
  have hs' : slot = SlotVal.fdVal := hs
  subst hs'
  have ht' : tdone = false := ht
  subst ht'
  have hi' : handlers.get? i = some HandlerState.idle := hi
  have hlt' : i < handlers.length := hlt
  have e1 := sigStep_h_eq SlotVal.fdVal handlers false events i _ hi'
  rw [show handlerAction SlotVal.fdVal HandlerState.idle =
    (SlotVal.inUse, HandlerState.swapped SlotVal.fdVal, []) from rfl] at e1
  dsimp only at e1
  simp only [List.append_nil] at e1
  have hg2 : (handlers.set i (HandlerState.swapped SlotVal.fdVal)).get? i =
      some (HandlerState.swapped SlotVal.fdVal) :=
    get?_set_self _ _ _ hlt'
  have e2 := sigStep_h_eq SlotVal.inUse
    (handlers.set i (HandlerState.swapped SlotVal.fdVal)) false events i _
    hg2
  rw [show handlerAction SlotVal.inUse
      (HandlerState.swapped SlotVal.fdVal) =
    (SlotVal.inUse, HandlerState.wrote SlotVal.fdVal, [SigEvent.writeFd])
    from rfl] at e2
  dsimp only at e2
  rw [List.set_set] at e2
  have hg3 : (handlers.set i (HandlerState.wrote SlotVal.fdVal)).get? i =
      some (HandlerState.wrote SlotVal.fdVal) :=
    get?_set_self _ _ _ hlt'
  have e3 := sigStep_h_eq SlotVal.inUse
    (handlers.set i (HandlerState.wrote SlotVal.fdVal)) false
    (events ++ [SigEvent.writeFd]) i _ hg3
  rw [show handlerAction SlotVal.inUse (HandlerState.wrote SlotVal.fdVal) =
    (SlotVal.fdVal, HandlerState.restored SlotVal.inUse, []) from rfl] at e3
  dsimp only at e3
  rw [List.set_set] at e3
  simp only [List.append_nil] at e3
  have e4 := sigStep_t_fd
    (handlers.set i (HandlerState.restored SlotVal.inUse))
    (events ++ [SigEvent.writeFd])
  have hg5 : (handlers.set i (HandlerState.restored SlotVal.inUse)).get? i =
      some (HandlerState.restored SlotVal.inUse) :=
    get?_set_self _ _ _ hlt'
  have e5 := sigStep_h_eq SlotVal.closedSent
    (handlers.set i (HandlerState.restored SlotVal.inUse)) true
    ((events ++ [SigEvent.writeFd]) ++ [SigEvent.closeFd]) i _ hg5
  rw [show handlerAction SlotVal.closedSent
      (HandlerState.restored SlotVal.inUse) =
    (SlotVal.closedSent, HandlerState.finished, []) from rfl] at e5
  dsimp only at e5
  rw [List.set_set] at e5
  simp only [List.append_nil] at e5
  rw [sigRun_cons, e1, sigRun_cons, e2, sigRun_cons, e3, sigRun_cons, e4,
    sigRun_cons, e5, sigRun_nil]
  simp

theorem sigStep_t_armed (s : SigSys) (hs : s.slot = .fdVal)
    (ht : s.tdone = false) :
    sigStep s .t =
      { slot := .closedSent, handlers := s.handlers, tdone := true,
        events := s.events ++ [.closeFd] } := by
  obtain ⟨slot, handlers, tdone, events⟩ := s
  have hs' : slot = SlotVal.fdVal := hs
  subst hs'
  have ht' : tdone = false := ht
  subst ht'
  exact sigStep_t_fd _ _

theorem get?_set_ne_handlers (l : List HandlerState) (i j : Nat)
    (v : HandlerState) (h : i ≠ j) : (l.set i v).get? j = l.get? j := by
  simp [List.get?_eq_getElem?, List.getElem?_set_ne h]

theorem get?_replicate_idle (n i : Nat) (h : i < n) :
    (List.replicate n HandlerState.idle).get? i =
      some HandlerState.idle := by
  induction n generalizing i with
  | zero => omega
  | succ m ih =>
    cases i with
    | zero => rfl
    | succ j =>
      simp only [List.replicate_succ, List.get?_cons_succ]
      exact ih j (by omega)

theorem run_blocks_torn (idxs : List Nat) : ∀ (s : SigSys),
    s.slot = .closedSent → idxs.Nodup →
    (∀ i ∈ idxs, s.handlers.get? i = some .idle) →
    (sigRun s (idxs.flatMap hblock)).events = s.events := by
  induction idxs with
  | nil => intro s _ _ _; rfl
  | cons i rest ih =>
    intro s hs hnd hall
    rw [show (i :: rest).flatMap hblock = hblock i ++ rest.flatMap hblock
      from rfl]
    rw [sigRun_append]
    have hb := run_hblock_torn s i (hall i (List.mem_cons_self i rest)) hs
    rw [hb]
    have hres := ih
      { slot := .closedSent, handlers := s.handlers.set i .finished,
        tdone := s.tdone, events := s.events } rfl
      (List.nodup_cons.mp hnd).2 ?_
    · exact hres
    · intro j hj
      have hne : i ≠ j := fun he =>
        (List.nodup_cons.mp hnd).1 (he ▸ hj)
      show (s.handlers.set i HandlerState.finished).get? j =
        some HandlerState.idle
      rw [get?_set_ne_handlers _ _ _ _ hne]
      exact hall j (List.mem_cons_of_mem i hj)

theorem serial_blocks_tear (idxs : List Nat) : ∀ (s : SigSys) (p : Nat),
    s.slot = .fdVal → s.tdone = false → idxs.Nodup →
    (∀ i ∈ idxs, s.handlers.get? i = some .idle) →
    closes (sigRun s ((idxs.flatMap hblock).take p ++
      SigLab.t :: (idxs.flatMap hblock).drop p)) = closes s + 1 := by
  induction idxs with
  | nil =>
    intro s p hs ht _ _
    simp only [List.flatMap_nil, List.take_nil, List.drop_nil,
      List.nil_append]
    rw [sigRun_cons, sigStep_t_armed s hs ht, sigRun_nil]
    simp [closes, List.count_append]
  | cons i rest ih =>
    intro s p hs ht hnd hall
    have hii := hall i (List.mem_cons_self i rest)
    rw [show (i :: rest).flatMap hblock = hblock i ++ rest.flatMap hblock
      from rfl]
    by_cases hp : p < 4
    · have hsub : p - (hblock i).length = 0 := by
        simp only [hblock, List.length_cons, List.length_nil]
        omega
      have htake : (hblock i ++ rest.flatMap hblock).take p =
          (hblock i).take p := by
        rw [List.take_append_eq_append_take, hsub, List.take_zero,
          List.append_nil]
      have hdrop : (hblock i ++ rest.flatMap hblock).drop p =
          (hblock i).drop p ++ rest.flatMap hblock := by
        rw [List.drop_append_eq_append_drop, hsub, List.drop_zero]
      rw [htake, hdrop,
        show (hblock i).take p ++
            SigLab.t :: ((hblock i).drop p ++ rest.flatMap hblock) =
          ((hblock i).take p ++ SigLab.t :: (hblock i).drop p) ++
            rest.flatMap hblock by simp]
      rw [sigRun_append]
      have hstate : ∃ E : List SigEvent,
          sigRun s ((hblock i).take p ++ SigLab.t :: (hblock i).drop p) =
            { slot := .closedSent,
              handlers := s.handlers.set i .finished, tdone := true,
              events := s.events ++ E } ∧
          E.count SigEvent.closeFd = 1 := by
        interval_cases p
        · refine ⟨[.closeFd], ?_, by decide⟩
          show sigRun s (SigLab.t :: hblock i) = _
          rw [sigRun_cons, sigStep_t_armed s hs ht]
          exact run_hblock_torn _ i hii rfl
        · exact ⟨[.writeFd, .closeFd], run_gap1 s i hii hs ht, by decide⟩
        · exact ⟨[.writeFd, .closeFd], run_gap2 s i hii hs ht, by decide⟩
        · exact ⟨[.writeFd, .closeFd], run_gap3 s i hii hs ht, by decide⟩
      obtain ⟨E, hst, hE⟩ := hstate
      rw [hst]
      have hrest := run_blocks_torn rest
        { slot := .closedSent, handlers := s.handlers.set i .finished,
          tdone := true, events := s.events ++ E } rfl
        (List.nodup_cons.mp hnd).2 ?_
      · simp only [closes] at *
        rw [hrest]
        simp [List.count_append, hE]
      · intro j hj
        have hne : i ≠ j := fun he =>
          (List.nodup_cons.mp hnd).1 (he ▸ hj)
        show (s.handlers.set i HandlerState.finished).get? j =
          some HandlerState.idle
        rw [get?_set_ne_handlers _ _ _ _ hne]
        exact hall j (List.mem_cons_of_mem i hj)
    · obtain ⟨q, rfl⟩ : ∃ q, p = 4 + q := ⟨p - 4, by omega⟩
      have hlen : (hblock i).length ≤ 4 + q := by
        simp only [hblock, List.length_cons, List.length_nil]
        omega
      have htake : (hblock i ++ rest.flatMap hblock).take (4 + q) =
          hblock i ++ (rest.flatMap hblock).take q := by
        rw [List.take_append_eq_append_take, List.take_all_of_le hlen]
        congr 2
        simp only [hblock, List.length_cons, List.length_nil]
        omega
      have hdrop : (hblock i ++ rest.flatMap hblock).drop (4 + q) =
          (rest.flatMap hblock).drop q := by
        rw [List.drop_append_eq_append_drop, List.drop_eq_nil_of_le hlen]
        rw [List.nil_append]
        congr 1
        simp only [hblock, List.length_cons, List.length_nil]
        omega
      rw [htake, hdrop,
        show (hblock i ++ (rest.flatMap hblock).take q) ++
            SigLab.t :: (rest.flatMap hblock).drop q =
          hblock i ++ ((rest.flatMap hblock).take q ++
            SigLab.t :: (rest.flatMap hblock).drop q) by simp]
      rw [sigRun_append, run_hblock_armed s i hii hs]
      have hres := ih
        { slot := .fdVal, handlers := s.handlers.set i .finished,
          tdone := s.tdone, events := s.events ++ [.writeFd] } q rfl ht
        (List.nodup_cons.mp hnd).2 ?_
      · rw [hres]
        simp [closes, List.count_append]
      · intro j hj
        have hne : i ≠ j := fun he =>
          (List.nodup_cons.mp hnd).1 (he ▸ hj)
        show (s.handlers.set i HandlerState.finished).get? j =
          some HandlerState.idle
        rw [get?_set_ne_handlers _ _ _ _ hne]
        exact hall j (List.mem_cons_of_mem i hj)

/-- C9 (counterexample): with two overlapping handler executions, there is
an interleaving in which every handler completes and the teardown runs, yet
the pipe write-end fd is never closed — both final exchanges return
sentinels and the fd value is dropped, so "closed exactly once under every
interleaving" fails. -/
theorem signal_bridge_fd_leak :
    allFinished (sigRun (sigInit 2) schedLeak) = true ∧
    closes (sigRun (sigInit 2) schedLeak) = 0 :=
  ⟨by decide, by decide⟩

/-- C9 (amended): under every interleaving of handler executions with the
teardown, the fd is closed at most once and no write to it happens after it
is closed; and in every serialized schedule (handler executions one after
another, the teardown anywhere between their atomic steps) the fd is closed
exactly once.  With overlapping handler executions the fd can be leaked. -/
theorem signal_bridge_amended :
    (∀ (n : Nat) (sched : List SigLab),
        closes (sigRun (sigInit n) sched) ≤ 1 ∧
        noWriteAfterClose (sigRun (sigInit n) sched).events = true) ∧
    (∀ (n p : Nat),
        closes (sigRun (sigInit n)
          ((serialTrunk n).take p ++ SigLab.t :: (serialTrunk n).drop p)) =
          1) := by
  constructor
  · intro n sched
    have h := sigRun_preserves_inv (sigInit n) sched (sigInit_inv n)
    obtain ⟨h1, h2⟩ := h
    refine ⟨?_, h2⟩
    unfold fdCopies at h1
    omega
  · intro n p
    have h := serial_blocks_tear (List.range n) (sigInit n) p rfl rfl
      (List.nodup_range n)
      (fun i hi => get?_replicate_idle n i (List.mem_range.mp hi))
    have h0 : closes (sigInit n) = 0 := rfl
    rw [h0] at h
    exact h

theorem launch_rollback_witness :
    (launchDeviceInterruptible envAll collabAll infoNine exitedOne dataNil
      []).events = [.forceStopInvoked 9, .groupRemoved "/h"] ∧
    (launchDeviceInterruptible envAll collabAll infoNine exitedOne dataNil
      []).result = .ok (responseFromSiginfo exitedOne) := by
  have h := launch_rollback_on_child_failure envAll collabAll infoNine
    exitedOne dataNil [] ⟨9, "1"⟩ [] rfl rfl rfl rfl
  have h2 := h.1 (Or.inr (by decide))
  exact ⟨h2.1, h2.2.2⟩

end Cuttlefish
